import Mathlib

/-!
Verification of the event-venue seating packer and DXF geometry utilities.

The definitions below are shallow embeddings of the TypeScript source:

* `doorAreaUtils.ts` — door-area (obstacle) bounding-box overlap tests;
* `tableCalculations` (seating packer) — `placeTablesOnly`, `placeChairsOnly`,
  `placeSmartMix`, `placeTablesInColumns`, `placeChairsInColumns`,
  `calculateTableArrangement`;
* `venues` config helpers — `isPointInPolygon`,
  `calculateTablePositionsInPolygon`, `calculateSingleChairPositions`;
* `simpleDxfExtractor.ts` — `applyTransform`, `combineTransforms`,
  `processInsert` (flat entity extraction);
* `advancedDxfRenderer` (`EntityProcessor`) — `processInsert`,
  `createPlaceholder`;
* `simpleStageTablePoints` — `calculateStageTablePoints`, `getStageRightEdge`,
  `convertFeetToDXFUnits`;
* the standalone DXF viewer — `interpolateBulgePoints`.

Numeric JavaScript values are modelled as `ℚ` where the source code is pure
arithmetic (the packer, the stage adjuster) so that all of it is executable,
and as `ℝ` where the source uses trigonometry (`Math.cos`/`Math.sin`/
`Math.atan2`) in the DXF transform code.  JavaScript `x || d` defaulting on
possibly-missing numbers is modelled by `jsOrQ` on `Option ℚ` (`0` is falsy).
Unbounded `while` loops advance a cursor and are modelled with an explicit
`fuel` argument; theorems that only need loop invariants hold for every fuel,
and progress theorems state how much fuel is sufficient.  Where JavaScript
produces `Infinity` from division by zero, the embedding spells the case out
explicitly (see `placeSmartMix`).
-/

/-- JavaScript `opt || dflt` for an optional number: `undefined` and `0` are
falsy and yield the default. -/
def jsOrQ (o : Option ℚ) (d : ℚ) : ℚ :=
  match o with
  | none => d
  | some v => if v = 0 then d else v

/-- A 2-D point with rational coordinates (packer side). -/
structure Pt where
  x : ℚ
  y : ℚ
deriving DecidableEq, Repr

/-- `TableAreaPoints` — a named 4-corner table area polygon. -/
structure TableAreaPoints where
  topLeft : Pt
  topRight : Pt
  bottomRight : Pt
  bottomLeft : Pt
deriving DecidableEq, Repr

/-- `DoorArea` — a door/exit exclusion zone: four corners plus an optional
uniform clearance (identification fields are omitted as they carry no
geometry). -/
structure DoorArea where
  topLeft : Pt
  topRight : Pt
  bottomRight : Pt
  bottomLeft : Pt
  clearance : Option ℚ
deriving DecidableEq, Repr

/-- `SingleChairConfig` — footprint and spacing of a single overflow chair
(`fileName` and `chairsPerRow` are omitted: no cited code reads them). -/
structure SingleChairConfig where
  width : ℚ
  height : ℚ
  spacing : ℚ
  rotation : Option ℚ
  rowsPerGroup : Option ℚ
deriving DecidableEq, Repr

/-- `TableConfig` — the table-area specification consumed by the packer
(string identification fields are omitted; `namedPoints` is optional here
because the code guards every use with `tableConfig.namedPoints ? … : …`). -/
structure TableConfig where
  width : ℚ
  height : ℚ
  chairsPerTable : ℚ
  tableSpacing : ℚ
  columnSpacing : ℚ
  rowsPerGroup : Option ℚ
  rowGroupSpacing : Option ℚ
  startX : ℚ
  startY : ℚ
  endX : ℚ
  endY : ℚ
  namedPoints : Option TableAreaPoints
  singleChair : Option SingleChairConfig
  seatingMode : Option String
deriving DecidableEq, Repr

/-- Axis-aligned bounding box `{minX, maxX, minY, maxY}`. -/
structure Bounds where
  minX : ℚ
  maxX : ℚ
  minY : ℚ
  maxY : ℚ
deriving DecidableEq, Repr

/-- `convertTableAreaToArray` — the four corners in source order. -/
def convertTableAreaToArray (points : TableAreaPoints) : List Pt :=
  [points.topLeft, points.topRight, points.bottomRight, points.bottomLeft]

/-- `getPolygonBounds` — min/max of the polygon's coordinates.  The source
spreads the lists into `Math.min`/`Math.max`; every call site passes the four
corners, so the empty case (JS would give `±Infinity`) is unreachable and
mapped to a zero box. -/
def getPolygonBounds (polygon : List Pt) : Bounds :=
  match polygon with
  | [] => ⟨0, 0, 0, 0⟩
  | p :: rest =>
    ⟨rest.foldl (fun a q => min a q.x) p.x,
     rest.foldl (fun a q => max a q.x) p.x,
     rest.foldl (fun a q => min a q.y) p.y,
     rest.foldl (fun a q => max a q.y) p.y⟩

/-- Area bounds used by all packer entry points: polygon bounds of
`namedPoints` when present, else the `startX..endX × startY..endY` box. -/
def tableBounds (cfg : TableConfig) : Bounds :=
  match cfg.namedPoints with
  | some np => getPolygonBounds (convertTableAreaToArray np)
  | none => ⟨cfg.startX, cfg.endX, cfg.startY, cfg.endY⟩

/-- A placed rectangular object as passed to the door-overlap test
(`x`,`y` are the packer's stored coordinates; the test reads them as the
centre). -/
structure ObjRect where
  x : ℚ
  y : ℚ
  width : ℚ
  height : ℚ
  rotation : ℚ
deriving DecidableEq, Repr

/-- `isObjectInDoorArea` — AABB intersection between the door's
clearance-expanded corner bounding box and the box centred at `(x, y)` with
half-extents `width/2`, `height/2`; `rotation` is accepted but unused. -/
def isObjectInDoorArea (object : ObjRect) (doorArea : DoorArea) : Bool :=
  let clearance := jsOrQ doorArea.clearance 0
  let doorMinX := min (min doorArea.topLeft.x doorArea.topRight.x)
      (min doorArea.bottomRight.x doorArea.bottomLeft.x) - clearance
  let doorMaxX := max (max doorArea.topLeft.x doorArea.topRight.x)
      (max doorArea.bottomRight.x doorArea.bottomLeft.x) + clearance
  let doorMinY := min (min doorArea.topLeft.y doorArea.topRight.y)
      (min doorArea.bottomRight.y doorArea.bottomLeft.y) - clearance
  let doorMaxY := max (max doorArea.topLeft.y doorArea.topRight.y)
      (max doorArea.bottomRight.y doorArea.bottomLeft.y) + clearance
  let halfWidth := object.width / 2
  let halfHeight := object.height / 2
  let objMinX := object.x - halfWidth
  let objMaxX := object.x + halfWidth
  let objMinY := object.y - halfHeight
  let objMaxY := object.y + halfHeight
  !(decide (objMaxX < doorMinX) || decide (objMinX > doorMaxX) ||
    decide (objMaxY < doorMinY) || decide (objMinY > doorMaxY))

/-- `isObjectInAnyDoorArea` — `doorAreas.some(...)`. -/
def isObjectInAnyDoorArea (object : ObjRect) (doorAreas : List DoorArea) : Bool :=
  doorAreas.any (fun doorArea => isObjectInDoorArea object doorArea)

/-- Raw (clearance-free) minimum X of a door's corners, as recomputed inline
by the packer's column checks. -/
def doorRawMinX (door : DoorArea) : ℚ :=
  min (min door.topLeft.x door.topRight.x) (min door.bottomLeft.x door.bottomRight.x)

/-- Raw (clearance-free) maximum X of a door's corners. -/
def doorRawMaxX (door : DoorArea) : ℚ :=
  max (max door.topLeft.x door.topRight.x) (max door.bottomLeft.x door.bottomRight.x)

/-- The packer's column test: does `[currentX, currentX + unitWidth]` overlap
some door's raw horizontal span? -/
def columnOverlapsDoor (currentX unitWidth : ℚ) (doorAreas : List DoorArea) : Bool :=
  doorAreas.any (fun door =>
    decide (currentX < doorRawMaxX door) && decide (currentX + unitWidth > doorRawMinX door))

/-- The packer's cursor jump target: the rightmost raw right edge over all
doors overlapping the column at `currentX`, starting from `currentX`. -/
def maxDoorEndX (currentX unitWidth : ℚ) (doorAreas : List DoorArea) : ℚ :=
  doorAreas.foldl
    (fun acc door =>
      if currentX < doorRawMaxX door ∧ currentX + unitWidth > doorRawMinX door then
        max acc (doorRawMaxX door)
      else acc)
    currentX

/-- A placed table `{x, y, tableIndex}`. -/
structure TablePos where
  x : ℚ
  y : ℚ
  tableIndex : ℕ
deriving DecidableEq, Repr

/-- A placed chair `{x, y, chairIndex}`. -/
structure ChairPos where
  x : ℚ
  y : ℚ
  chairIndex : ℕ
deriving DecidableEq, Repr

/-- Result record of the three `place*` strategies. -/
structure SeatingResultQ where
  tables : List TablePos
  chairs : List ChairPos
  actualGuests : ℚ
deriving DecidableEq, Repr

/-- Vertical position of table row `row` inside a column:
`bounds.minY + row * (height + tableSpacing) + ⌊row / rowsPerGroup⌋ * rowGroupSpacing`. -/
def tableRowY (cfg : TableConfig) (b : Bounds) (row : ℕ) : ℚ :=
  b.minY + (row : ℚ) * (cfg.height + cfg.tableSpacing) +
    (⌊(row : ℚ) / jsOrQ cfg.rowsPerGroup 999⌋ : ℤ) * jsOrQ cfg.rowGroupSpacing 0

/-- One column of `placeTablesOnly`: the inner `for` loop over rows.  State is
`(tables placed in this column, running guest count, next table index)`.  The
source loop breaks as soon as `currentGuests ≥ targetGuestCount`; since the
guest count never decreases, guarding each iteration by the same condition is
equivalent. -/
def tablesOnlyColumn (target : ℚ) (cfg : TableConfig) (doorAreas : List DoorArea)
    (b : Bounds) (maxTablesPerColumn : ℕ) (currentX : ℚ) (guests : ℚ) (idx : ℕ) :
    List TablePos × ℚ × ℕ :=
  (List.range maxTablesPerColumn).foldl
    (fun st row =>
      if st.2.1 < target then
        let rowY := tableRowY cfg b row
        if rowY + cfg.height ≤ b.maxY then
          if isObjectInAnyDoorArea ⟨currentX, rowY, cfg.width, cfg.height, 0⟩ doorAreas then st
          else (st.1 ++ [⟨currentX, rowY, st.2.2⟩], st.2.1 + cfg.chairsPerTable, st.2.2 + 1)
        else st
      else st)
    ([], guests, idx)

/-- The `while` loop of `placeTablesOnly`, with explicit fuel.  Each source
iteration either skips past the doors overlapping the current column or fills
one column and advances by `width + columnSpacing`. -/
def placeTablesOnlyGo (target : ℚ) (cfg : TableConfig) (doorAreas : List DoorArea)
    (b : Bounds) (maxTablesPerColumn : ℕ) :
    ℕ → ℚ → ℚ → ℕ → List TablePos × ℚ
  | 0, _, guests, _ => ([], guests)
  | fuel + 1, currentX, guests, idx =>
    if guests < target ∧ currentX + cfg.width ≤ b.maxX then
      if columnOverlapsDoor currentX cfg.width doorAreas then
        placeTablesOnlyGo target cfg doorAreas b maxTablesPerColumn fuel
          (maxDoorEndX currentX cfg.width doorAreas + cfg.tableSpacing) guests idx
      else
        let col := tablesOnlyColumn target cfg doorAreas b maxTablesPerColumn currentX guests idx
        let rest := placeTablesOnlyGo target cfg doorAreas b maxTablesPerColumn fuel
          (currentX + (cfg.width + cfg.columnSpacing)) col.2.1 col.2.2
        (col.1 ++ rest.1, rest.2)
    else ([], guests)

/-- `placeTablesOnly` — tables-only placement: fill columns left to right
until the running seated count reaches the target or the area is exhausted. -/
def placeTablesOnly (fuel : ℕ) (targetGuestCount : ℚ) (cfg : TableConfig)
    (doorAreas : List DoorArea) : SeatingResultQ :=
  let b := tableBounds cfg
  let maxTablesPerColumn :=
    (⌊(b.maxY - b.minY) / (cfg.height + cfg.tableSpacing)⌋ : ℤ).toNat
  let r := placeTablesOnlyGo targetGuestCount cfg doorAreas b maxTablesPerColumn
    fuel b.minX 0 0
  ⟨r.1, [], r.2⟩

/-- JavaScript truncation toward zero (used by the `%` operator). -/
def jsTrunc (q : ℚ) : ℤ :=
  if q < 0 then ⌈q⌉ else ⌊q⌋

/-- JavaScript remainder `a % b` on numbers: `a - b * trunc(a / b)`. -/
def jsMod (a b : ℚ) : ℚ :=
  a - b * jsTrunc (a / b)

/-- The raw per-column chair capacity before row-group rounding:
full groups of `rowsPerGroup` rows (each group followed by
`rowGroupSpacing`) plus the extra rows fitting in the remaining height.
This expression occurs verbatim in `placeChairsOnly`, `placeSmartMix` and
`calculateSingleChairPositions`. -/
def chairColumnCapacityRaw (availableHeight : ℚ) (chair : SingleChairConfig)
    (rowGroupSpacingOpt : Option ℚ) : ℚ :=
  let chairHeightWithSpacing := chair.height + chair.spacing
  let chairRowsPerGroup := jsOrQ chair.rowsPerGroup 999
  let chairRowGroupSpacing := jsOrQ rowGroupSpacingOpt 0
  let chairGroupBlockHeight := chairRowsPerGroup * chairHeightWithSpacing + chairRowGroupSpacing
  let chairFullGroups : ℤ := ⌊availableHeight / chairGroupBlockHeight⌋
  let chairRemainingHeight := availableHeight - chairFullGroups * chairGroupBlockHeight
  let chairExtraRows : ℤ := ⌊chairRemainingHeight / chairHeightWithSpacing⌋
  (chairFullGroups : ℚ) * chairRowsPerGroup + chairExtraRows

/-- Per-column chair capacity, rounded down to a whole multiple of the chair's
`rowsPerGroup` whenever it is not already one (the shared
`maxChairsPerColumn % chairRowsPerGroup !== 0` adjustment). -/
def chairColumnCapacity (availableHeight : ℚ) (chair : SingleChairConfig)
    (rowGroupSpacingOpt : Option ℚ) : ℚ :=
  let m := chairColumnCapacityRaw availableHeight chair rowGroupSpacingOpt
  let chairRowsPerGroup := jsOrQ chair.rowsPerGroup 999
  if jsMod m chairRowsPerGroup ≠ 0 then (⌊m / chairRowsPerGroup⌋ : ℤ) * chairRowsPerGroup
  else m

/-- Vertical position of chair row `row` inside a column (chair grouping uses
the chair's own `rowsPerGroup` but the table config's `rowGroupSpacing`). -/
def chairRowY (cfg : TableConfig) (chair : SingleChairConfig) (b : Bounds) (row : ℕ) : ℚ :=
  b.minY + (row : ℚ) * (chair.height + chair.spacing) +
    (⌊(row : ℚ) / jsOrQ chair.rowsPerGroup 999⌋ : ℤ) * jsOrQ cfg.rowGroupSpacing 0

/-- One column of `placeChairsOnly`: the inner row loop, guarded by the
target count exactly like `tablesOnlyColumn`. -/
def chairsOnlyColumn (target : ℚ) (cfg : TableConfig) (chair : SingleChairConfig)
    (doorAreas : List DoorArea) (b : Bounds) (maxRows : ℕ) (currentX : ℚ)
    (guests : ℚ) (idx : ℕ) : List ChairPos × ℚ × ℕ :=
  (List.range maxRows).foldl
    (fun st row =>
      if st.2.1 < target then
        let rowY := chairRowY cfg chair b row
        if rowY + chair.height ≤ b.maxY then
          if isObjectInAnyDoorArea
              ⟨currentX, rowY, chair.width, chair.height, jsOrQ chair.rotation 0⟩ doorAreas then st
          else (st.1 ++ [⟨currentX, rowY, st.2.2⟩], st.2.1 + 1, st.2.2 + 1)
        else st
      else st)
    ([], guests, idx)

/-- The `while` loop of `placeChairsOnly` (door jumps and column advancement
both use the chair spacing). -/
def placeChairsOnlyGo (target : ℚ) (cfg : TableConfig) (chair : SingleChairConfig)
    (doorAreas : List DoorArea) (b : Bounds) (maxRows : ℕ) :
    ℕ → ℚ → ℚ → ℕ → List ChairPos × ℚ
  | 0, _, guests, _ => ([], guests)
  | fuel + 1, currentX, guests, idx =>
    if guests < target ∧ currentX + chair.width ≤ b.maxX then
      if columnOverlapsDoor currentX chair.width doorAreas then
        placeChairsOnlyGo target cfg chair doorAreas b maxRows fuel
          (maxDoorEndX currentX chair.width doorAreas + chair.spacing) guests idx
      else
        let col := chairsOnlyColumn target cfg chair doorAreas b maxRows currentX guests idx
        let rest := placeChairsOnlyGo target cfg chair doorAreas b maxRows fuel
          (currentX + (chair.width + chair.spacing)) col.2.1 col.2.2
        (col.1 ++ rest.1, rest.2)
    else ([], guests)

/-- `placeChairsOnly` — chairs-only placement; without a single-chair config
it warns and returns the empty result. -/
def placeChairsOnly (fuel : ℕ) (targetGuestCount : ℚ) (cfg : TableConfig)
    (doorAreas : List DoorArea) : SeatingResultQ :=
  match cfg.singleChair with
  | none => ⟨[], [], 0⟩
  | some chair =>
    let b := tableBounds cfg
    let availableHeight := b.maxY - b.minY
    let maxChairsPerColumn := chairColumnCapacity availableHeight chair cfg.rowGroupSpacing
    let r := placeChairsOnlyGo targetGuestCount cfg chair doorAreas b
      (⌈maxChairsPerColumn⌉ : ℤ).toNat fuel b.minX 0 0
    ⟨[], r.1, r.2⟩

/-- One column of `placeTablesInColumns`: no guest-count guard; the bound
checks re-test `currentX + width ≤ maxX` per row as in the source. -/
def tablesInColumnsColumn (cfg : TableConfig) (doorAreas : List DoorArea) (b : Bounds)
    (maxTablesPerColumn : ℕ) (rowsPerGroup rowGroupSpacing currentX : ℚ) (idx : ℕ) :
    List TablePos × ℕ :=
  (List.range maxTablesPerColumn).foldl
    (fun (st : List TablePos × ℕ) (row : ℕ) =>
      let rowY := b.minY + (row : ℚ) * (cfg.height + cfg.tableSpacing) +
        (⌊(row : ℚ) / rowsPerGroup⌋ : ℤ) * rowGroupSpacing
      if currentX + cfg.width ≤ b.maxX ∧ rowY + cfg.height ≤ b.maxY then
        if isObjectInAnyDoorArea ⟨currentX, rowY, cfg.width, cfg.height, 0⟩ doorAreas then st
        else (st.1 ++ [⟨currentX, rowY, st.2⟩], st.2 + 1)
      else st)
    ([], idx)

/-- The `while` loop of `placeTablesInColumns`, bounded by the requested
number of columns. -/
def placeTablesInColumnsGo (numColumns : ℤ) (cfg : TableConfig)
    (doorAreas : List DoorArea) (b : Bounds) (maxTablesPerColumn : ℕ)
    (rowsPerGroup rowGroupSpacing : ℚ) :
    ℕ → ℚ → ℤ → ℕ → List TablePos
  | 0, _, _, _ => []
  | fuel + 1, currentX, columnsPlaced, idx =>
    if columnsPlaced < numColumns ∧ currentX + cfg.width ≤ b.maxX then
      if columnOverlapsDoor currentX cfg.width doorAreas then
        placeTablesInColumnsGo numColumns cfg doorAreas b maxTablesPerColumn
          rowsPerGroup rowGroupSpacing fuel
          (maxDoorEndX currentX cfg.width doorAreas + cfg.tableSpacing) columnsPlaced idx
      else
        let col := tablesInColumnsColumn cfg doorAreas b maxTablesPerColumn
          rowsPerGroup rowGroupSpacing currentX idx
        col.1 ++ placeTablesInColumnsGo numColumns cfg doorAreas b maxTablesPerColumn
          rowsPerGroup rowGroupSpacing fuel
          (currentX + (cfg.width + cfg.columnSpacing)) (columnsPlaced + 1) col.2
    else []

/-- `placeTablesInColumns` — place tables in at most `numColumns` columns and
report `tables.length * chairsPerTable` seated guests. -/
def placeTablesInColumns (fuel : ℕ) (numColumns : ℤ) (cfg : TableConfig)
    (doorAreas : List DoorArea) (b : Bounds) (maxTablesPerColumn : ℤ)
    (rowsPerGroup rowGroupSpacing : ℚ) : List TablePos × ℚ :=
  let tables := placeTablesInColumnsGo numColumns cfg doorAreas b
    maxTablesPerColumn.toNat rowsPerGroup rowGroupSpacing fuel b.minX 0 0
  (tables, (tables.length : ℚ) * cfg.chairsPerTable)

/-- One column of `placeChairsInColumns`: rows are guarded by the remaining
guest demand `maxGuests`. -/
def chairsInColumnsColumn (cfg : TableConfig) (chair : SingleChairConfig)
    (doorAreas : List DoorArea) (b : Bounds) (maxRows : ℕ) (maxGuests currentX : ℚ)
    (guests : ℚ) (idx : ℕ) : List ChairPos × ℚ × ℕ :=
  (List.range maxRows).foldl
    (fun st row =>
      if st.2.1 < maxGuests then
        let rowY := chairRowY cfg chair b row
        if currentX + chair.width ≤ b.maxX ∧ rowY + chair.height ≤ b.maxY then
          if isObjectInAnyDoorArea
              ⟨currentX, rowY, chair.width, chair.height, jsOrQ chair.rotation 0⟩ doorAreas then st
          else (st.1 ++ [⟨currentX, rowY, st.2.2⟩], st.2.1 + 1, st.2.2 + 1)
        else st
      else st)
    ([], guests, idx)

/-- The `while` loop of `placeChairsInColumns`. -/
def placeChairsInColumnsGo (numColumns : ℤ) (maxGuests : ℚ) (cfg : TableConfig)
    (chair : SingleChairConfig) (doorAreas : List DoorArea) (b : Bounds) (maxRows : ℕ) :
    ℕ → ℚ → ℚ → ℤ → ℕ → List ChairPos × ℚ
  | 0, _, guests, _, _ => ([], guests)
  | fuel + 1, currentX, guests, columnsPlaced, idx =>
    if columnsPlaced < numColumns ∧ guests < maxGuests ∧ currentX + chair.width ≤ b.maxX then
      if columnOverlapsDoor currentX chair.width doorAreas then
        placeChairsInColumnsGo numColumns maxGuests cfg chair doorAreas b maxRows fuel
          (maxDoorEndX currentX chair.width doorAreas + chair.spacing) guests columnsPlaced idx
      else
        let col := chairsInColumnsColumn cfg chair doorAreas b maxRows maxGuests currentX guests idx
        let rest := placeChairsInColumnsGo numColumns maxGuests cfg chair doorAreas b maxRows fuel
          (currentX + (chair.width + chair.spacing)) col.2.1 (columnsPlaced + 1) col.2.2
        (col.1 ++ rest.1, rest.2)
    else ([], guests)

/-- `placeChairsInColumns` — place chairs in at most `numColumns` columns,
starting at `startX`, capped by `maxGuests`. -/
def placeChairsInColumns (fuel : ℕ) (numColumns : ℤ) (maxGuests : ℚ)
    (cfg : TableConfig) (doorAreas : List DoorArea) (b : Bounds)
    (maxChairsPerColumn : ℚ) (startX : ℚ) : List ChairPos × ℚ :=
  match cfg.singleChair with
  | none => ([], 0)
  | some chair =>
    placeChairsInColumnsGo numColumns maxGuests cfg chair doorAreas b
      (⌈maxChairsPerColumn⌉ : ℤ).toNat fuel startX 0 0 0

/-- The running best solution of `placeSmartMix`; `gap = none` models the
initial JavaScript `Infinity`. -/
structure BestSolution where
  tables : List TablePos
  chairs : List ChairPos
  actualGuests : ℚ
  gap : Option ℚ
deriving DecidableEq, Repr

/-- `g < best.gap` with `none` as `Infinity`. -/
def ltOptQ (g : ℚ) (og : Option ℚ) : Bool :=
  match og with
  | none => true
  | some q => decide (g < q)

/-- `maxChairsPerColumn` as computed at the top of `placeSmartMix`
(`0` when no single-chair config exists). -/
def smartMixMaxChairsPerColumn (cfg : TableConfig) (availableHeight : ℚ) : ℚ :=
  match cfg.singleChair with
  | none => 0
  | some chair => chairColumnCapacity availableHeight chair cfg.rowGroupSpacing

/-- One iteration of `placeSmartMix`'s candidate loop at `tableColumns = tc`;
returns the updated best solution and whether the loop `break`s. -/
def smartMixStep (fuel : ℕ) (target : ℚ) (cfg : TableConfig) (doorAreas : List DoorArea)
    (b : Bounds) (maxTablesPerColumn : ℤ) (rowsPerGroup rowGroupSpacing : ℚ)
    (tc : ℕ) (best : BestSolution) : BestSolution × Bool :=
  let tg := placeTablesInColumns fuel (tc : ℤ) cfg doorAreas b maxTablesPerColumn
    rowsPerGroup rowGroupSpacing
  let remainingGuests := target - tg.2
  if remainingGuests ≤ 0 then
    let gap := |tg.2 - target|
    (if ltOptQ gap best.gap then ⟨tg.1, [], tg.2, some gap⟩ else best, false)
  else
    match cfg.singleChair with
    | none => (best, false)
    | some chair =>
      let maxChairsPerColumn := chairColumnCapacity (b.maxY - b.minY) chair cfg.rowGroupSpacing
      let chairWidthWithSpacing := chair.width + chair.spacing
      let chairStartX :=
        match tg.1 with
        | [] => b.minX
        | t :: ts =>
          ts.foldl (fun a u => max a u.x) t.x + cfg.width +
            max cfg.columnSpacing (chair.spacing * 2)
      let spaceForChairs := b.maxX - chairStartX
      let maxChairColumnsThatFit : ℤ := ⌊spaceForChairs / chairWidthWithSpacing⌋
      -- JS note: `Math.ceil(remainingGuests / seatsPerChairColumn)` is
      -- `Infinity` when the per-column capacity is `0` (remainingGuests > 0
      -- here), so the `Math.min` below collapses to `maxChairColumnsThatFit`.
      let chairColumnsToPlace : ℤ :=
        if maxChairsPerColumn = 0 then maxChairColumnsThatFit
        else min ⌈remainingGuests / maxChairsPerColumn⌉ maxChairColumnsThatFit
      if 0 < chairColumnsToPlace then
        let cg := placeChairsInColumns fuel chairColumnsToPlace remainingGuests cfg
          doorAreas b maxChairsPerColumn chairStartX
        let totalGuests := tg.2 + cg.2
        let gap := |totalGuests - target|
        let best' :=
          if ltOptQ gap best.gap || decide (best.actualGuests < totalGuests) then
            ⟨tg.1, cg.1, totalGuests, some gap⟩
          else best
        (best', decide (target ≤ totalGuests) && decide (gap ≤ cfg.chairsPerTable))
      else
        (if best.actualGuests < tg.2 then ⟨tg.1, [], tg.2, some |tg.2 - target|⟩ else best,
         false)

/-- The candidate loop of `placeSmartMix`: `tableColumns` counts down from the
maximum to `0`, stopping early when a step signals `break`. -/
def smartMixLoop (fuel : ℕ) (target : ℚ) (cfg : TableConfig) (doorAreas : List DoorArea)
    (b : Bounds) (maxTablesPerColumn : ℤ) (rowsPerGroup rowGroupSpacing : ℚ) :
    ℕ → BestSolution → BestSolution
  | 0, best =>
    (smartMixStep fuel target cfg doorAreas b maxTablesPerColumn rowsPerGroup
      rowGroupSpacing 0 best).1
  | tc + 1, best =>
    let p := smartMixStep fuel target cfg doorAreas b maxTablesPerColumn rowsPerGroup
      rowGroupSpacing (tc + 1) best
    if p.2 then p.1
    else smartMixLoop fuel target cfg doorAreas b maxTablesPerColumn rowsPerGroup
      rowGroupSpacing tc p.1

/-- `placeSmartMix` — the auto ("smart mix") strategy: try every
table-column count from the maximum down to zero, filling the remaining
demand with chair columns, and keep the best candidate. -/
def placeSmartMix (fuel : ℕ) (targetGuestCount : ℚ) (cfg : TableConfig)
    (doorAreas : List DoorArea) : SeatingResultQ :=
  let b := tableBounds cfg
  let rowsPerGroup := jsOrQ cfg.rowsPerGroup 999
  let rowGroupSpacing := jsOrQ cfg.rowGroupSpacing 0
  let maxTablesPerColumn : ℤ := ⌊(b.maxY - b.minY) / (cfg.height + cfg.tableSpacing)⌋
  let maxColumnsAvailable : ℤ := ⌊(b.maxX - b.minX) / (cfg.width + cfg.columnSpacing)⌋
  let best :=
    if maxColumnsAvailable < 0 then (⟨[], [], 0, none⟩ : BestSolution)
    else smartMixLoop fuel targetGuestCount cfg doorAreas b maxTablesPerColumn
      rowsPerGroup rowGroupSpacing maxColumnsAvailable.toNat ⟨[], [], 0, none⟩
  let best :=
    if best.actualGuests = 0 ∧ 0 < maxColumnsAvailable then
      let fb := placeTablesInColumns fuel maxColumnsAvailable cfg doorAreas b
        maxTablesPerColumn rowsPerGroup rowGroupSpacing
      (⟨fb.1, [], fb.2, some |fb.2 - targetGuestCount|⟩ : BestSolution)
    else best
  ⟨best.tables, best.chairs, best.actualGuests⟩

/-- A generated hall object (`id` and `fileName` are omitted; `tableIndex`
doubles as the chair index for chair objects, as in the source). -/
structure HallObjectQ where
  type : String
  x : ℚ
  y : ℚ
  width : ℚ
  height : ℚ
  tableIndex : ℕ
  rotation : ℚ
deriving DecidableEq, Repr

/-- The arrangement summary of `calculateTableArrangement`
(file names omitted). -/
structure ArrangementQ where
  totalTables : ℕ
  totalChairs : ℚ
  totalSingleChairs : ℕ
  totalGuests : ℚ
deriving DecidableEq, Repr

/-- Result of `calculateTableArrangement`. -/
structure TableCalculationResultQ where
  objects : List HallObjectQ
  arrangement : ArrangementQ
deriving DecidableEq, Repr

/-- `calculateTableArrangement` — dispatch on the seating mode and generate
hall objects from the chosen strategy's placements. -/
def calculateTableArrangement (fuel : ℕ) (guestCount : ℚ) (cfg : TableConfig)
    (doorAreas : List DoorArea) : TableCalculationResultQ :=
  if guestCount ≤ 0 then ⟨[], ⟨0, 0, 0, 0⟩⟩
  else
    let seatingMode :=
      match cfg.seatingMode with
      | none => "auto"
      | some s => if s = "" then "auto" else s
    let seatingResult :=
      if seatingMode = "tables-only" then placeTablesOnly fuel guestCount cfg doorAreas
      else if seatingMode = "chairs-only" then placeChairsOnly fuel guestCount cfg doorAreas
      else placeSmartMix fuel guestCount cfg doorAreas
    let tableObjects := seatingResult.tables.map
      (fun t => (⟨"table", t.x, t.y, cfg.width, cfg.height, t.tableIndex, 0⟩ : HallObjectQ))
    let chairObjects :=
      match cfg.singleChair with
      | none => []
      | some chair => seatingResult.chairs.map
        (fun c => (⟨"chair", c.x, c.y, chair.width, chair.height, c.chairIndex,
          jsOrQ chair.rotation 0⟩ : HallObjectQ))
    ⟨tableObjects ++ chairObjects,
     ⟨seatingResult.tables.length,
      (seatingResult.tables.length : ℚ) * cfg.chairsPerTable,
      seatingResult.chairs.length,
      seatingResult.actualGuests⟩⟩

/-- `isPointInPolygon` — the even-odd ray-casting test for a 4-point polygon.
The source iterates `i = 0..3` with `j` the previous index; the edge-crossing
division is only evaluated when `polygon[i].y > y` and `polygon[j].y > y`
differ, which forces a nonzero denominator. -/
def isPointInPolygon (point : Pt) (polygon : List Pt) : Bool :=
  if polygon.length ≠ 4 then false
  else
    [(0, 3), (1, 0), (2, 1), (3, 2)].foldl
      (fun inside ij =>
        let pI := polygon.getD ij.1 ⟨0, 0⟩
        let pJ := polygon.getD ij.2 ⟨0, 0⟩
        if (decide (pI.y > point.y) != decide (pJ.y > point.y)) &&
            decide (point.x < (pJ.x - pI.x) * (point.y - pI.y) / (pJ.y - pI.y) + pI.x) then
          !inside
        else inside)
      false

/-- The four footprint corners tested by `calculateTablePositionsInPolygon`,
in source order (top-left, top-right, bottom-left, bottom-right). -/
def tableCorners (columnX rowY width height : ℚ) : List Pt :=
  [⟨columnX, rowY⟩, ⟨columnX + width, rowY⟩,
   ⟨columnX, rowY + height⟩, ⟨columnX + width, rowY + height⟩]

/-- `calculateTablePositionsInPolygon` — grid placement inside a 4-point
polygon area; a table is placed only when all four of its corners pass the
point-in-polygon test.  `Math.ceil(tableCount / 0)` would be `Infinity` in
JavaScript (for positive `tableCount`), which the `Math.min` collapses to
`maxColumnsAvailable`; that case is spelled out. -/
def calculateTablePositionsInPolygon (cfg : TableConfig) (tableCount : ℚ) :
    List TablePos :=
  match cfg.namedPoints with
  | none => []
  | some np =>
    let polygon := convertTableAreaToArray np
    let b := getPolygonBounds polygon
    let tableHeightWithSpacing := cfg.height + cfg.tableSpacing
    let maxTablesPerColumn : ℤ := ⌊(b.maxY - b.minY) / tableHeightWithSpacing⌋
    let maxColumnsAvailable : ℤ := ⌊(b.maxX - b.minX) / (cfg.width + cfg.columnSpacing)⌋
    let actualColumns : ℤ :=
      if maxTablesPerColumn = 0 then (if 0 < tableCount then maxColumnsAvailable else 0)
      else min ⌈tableCount / (maxTablesPerColumn : ℚ)⌉ maxColumnsAvailable
    let rowsPerGroup := jsOrQ cfg.rowsPerGroup 999
    let rowGroupSpacing := jsOrQ cfg.rowGroupSpacing 0
    let r := (List.range actualColumns.toNat).foldl
      (fun (st : List TablePos × ℕ) (col : ℕ) =>
        let columnX := b.minX + (col : ℚ) * (cfg.width + cfg.columnSpacing)
        (List.range maxTablesPerColumn.toNat).foldl
          (fun (st : List TablePos × ℕ) (row : ℕ) =>
            if (st.2 : ℚ) < tableCount then
              let rowY := b.minY + (row : ℚ) * tableHeightWithSpacing +
                (⌊(row : ℚ) / rowsPerGroup⌋ : ℤ) * rowGroupSpacing
              if columnX + cfg.width ≤ b.maxX ∧ rowY + cfg.height ≤ b.maxY then
                if (tableCorners columnX rowY cfg.width cfg.height).all
                    (fun corner => isPointInPolygon corner polygon) then
                  (st.1 ++ [⟨columnX, rowY, st.2⟩], st.2 + 1)
                else st
              else st
            else st)
          st)
      (([], 0) : List TablePos × ℕ)
    r.1

/-- `calculateSingleChairPositions` — fill whole chair columns (capacity
rounded to row groups) and one partial last column, rejecting any chair with
a footprint corner outside the polygon when the area is a 4-point polygon.
When the per-column capacity is `0`, the JavaScript division/modulo yield
`Infinity`/`NaN` and no chair is ever placed; that case is mapped to an
empty column plan. -/
def calculateSingleChairPositions (cfg : TableConfig) (chairCount : ℚ) :
    List ChairPos :=
  match cfg.singleChair with
  | none => []
  | some chair =>
    let b := tableBounds cfg
    let availableWidth := b.maxX - b.minX
    let availableHeight := b.maxY - b.minY
    let chairWidthWithSpacing := chair.width + chair.spacing
    let maxColumnsAvailable : ℤ := ⌊availableWidth / chairWidthWithSpacing⌋
    let maxChairsPerColumn := chairColumnCapacity availableHeight chair cfg.rowGroupSpacing
    let completeChairColumns : ℤ :=
      if maxChairsPerColumn = 0 then 0 else ⌊chairCount / maxChairsPerColumn⌋
    let chairsInLastColumn : ℚ :=
      if maxChairsPerColumn = 0 then 0 else jsMod chairCount maxChairsPerColumn
    let totalColumnsToFill : ℤ :=
      completeChairColumns + (if 0 < chairsInLastColumn then 1 else 0)
    let r := (List.range (min totalColumnsToFill maxColumnsAvailable).toNat).foldl
      (fun (st : List ChairPos × ℕ) (col : ℕ) =>
        let columnX := b.minX + (col : ℚ) * chairWidthWithSpacing
        let chairsInThisColumn : ℚ :=
          if (col : ℤ) < completeChairColumns then maxChairsPerColumn
          else chairsInLastColumn
        (List.range (⌈chairsInThisColumn⌉ : ℤ).toNat).foldl
          (fun (st : List ChairPos × ℕ) (row : ℕ) =>
            let rowY := chairRowY cfg chair b row
            if columnX + chair.width ≤ b.maxX ∧ rowY + chair.height ≤ b.maxY then
              match cfg.namedPoints with
              | some np =>
                if (tableCorners columnX rowY chair.width chair.height).all
                    (fun corner => isPointInPolygon corner (convertTableAreaToArray np)) then
                  (st.1 ++ [⟨columnX, rowY, st.2⟩], st.2 + 1)
                else st
              | none => (st.1 ++ [⟨columnX, rowY, st.2⟩], st.2 + 1)
            else st)
          st)
      (([], 0) : List ChairPos × ℕ)
    r.1

/-- JavaScript truthiness of an optional number (`undefined` and `0` are
falsy). -/
def jsTruthyQ (o : Option ℚ) : Bool :=
  match o with
  | none => false
  | some v => decide (v ≠ 0)

/-- `StageConfig` — position plus optional footprint and rotation
(identification fields omitted). -/
structure StageConfigQ where
  x : ℚ
  y : ℚ
  width : Option ℚ
  height : Option ℚ
  rotation : Option ℚ
deriving DecidableEq, Repr

/-- The `naturalSize` payload of a loaded DXF, as read by
`getStageRightEdge`.  A `dxf` object lacking `naturalSize` would make the
JavaScript arithmetic produce `NaN`; that degenerate shape is outside the
model, so the optional chain `dxf?.naturalSize?` collapses to one `Option`. -/
structure DxfNaturalSize where
  width : ℚ
  height : ℚ
deriving DecidableEq, Repr

/-- The width/height resolution at the top of `getStageRightEdge`: keep the
stage's own dimensions when both are truthy, otherwise fall back to the DXF's
natural size or to the defaults `1140 × 200`. -/
def resolvedStageDims (stage : StageConfigQ) (dxf : Option DxfNaturalSize) : ℚ × ℚ :=
  if jsTruthyQ stage.width && jsTruthyQ stage.height then
    (stage.width.getD 0, stage.height.getD 0)
  else
    match dxf with
    | some d => (d.width, d.height)
    | none => (jsOrQ stage.width 1140, jsOrQ stage.height 200)

/-- `getStageRightEdge` — the stage's rightmost X: centre plus half of the
footprint dimension facing right (the height when the stage is rotated 90°,
the width otherwise). -/
def getStageRightEdge (stage : StageConfigQ) (dxf : Option DxfNaturalSize) : ℚ :=
  let dims := resolvedStageDims stage dxf
  if jsOrQ stage.rotation 0 = 90 then stage.x + dims.2 / 2
  else stage.x + dims.1 / 2

/-- `convertFeetToDXFUnits` — feet to drawing units via metres; unknown unit
strings fall back to metres. -/
def convertFeetToDXFUnits (feet : ℚ) (dxfUnits : String) : ℚ :=
  let feetInMeters := feet * (3048 / 10000)
  if dxfUnits = "meters" then feetInMeters
  else if dxfUnits = "millimeters" then feetInMeters * 1000
  else if dxfUnits = "centimeters" then feetInMeters * 100
  else if dxfUnits = "kilometers" then feetInMeters / 1000
  else if dxfUnits = "inches" then feet * 12
  else if dxfUnits = "feet" then feet
  else feetInMeters

/-- `getTableAreaPoints` — the venue config accessor (the embedding's
`namedPoints` is optional, see `TableConfig`). -/
def getTableAreaPoints (tableConfig : TableConfig) : Option TableAreaPoints :=
  tableConfig.namedPoints

/-- `calculateStageTablePoints` — recompute the left corners of the base
table area from the stage's right edge plus the configured clearance
(`maxDistanceFeet`, converted to drawing units when the unit string is
known), leaving the right corners and the left corners' Y untouched.  The
source also computes `minDistance` and the stage front/back/left/right
boundaries, but none of them feed the returned points; those dead locals are
omitted. -/
def calculateStageTablePoints (stage : StageConfigQ) (baseTableConfig : TableConfig)
    (_minDistanceFeet maxDistanceFeet : ℚ) (dxfUnits : Option String)
    (dxf : Option DxfNaturalSize) : Option TableAreaPoints :=
  (getTableAreaPoints baseTableConfig).map (fun basePoints =>
    let maxDistance : Option ℚ := dxfUnits.map (convertFeetToDXFUnits maxDistanceFeet)
    let stageRightEdge := getStageRightEdge stage dxf
    let tableAreaStartX := stageRightEdge + jsOrQ maxDistance 0
    ⟨⟨tableAreaStartX, basePoints.topLeft.y⟩,
     basePoints.topRight,
     basePoints.bottomRight,
     ⟨tableAreaStartX, basePoints.bottomLeft.y⟩⟩)

section DxfReal

open Real

/-- A point record with real coordinates and optional `z`, as passed around
the DXF code. -/
structure RPt where
  x : ℝ
  y : ℝ
  z : Option ℝ

/-- JavaScript `v || d` on a possibly-missing real. -/
noncomputable def jsOrR (o : Option ℝ) (d : ℝ) : ℝ :=
  match o with
  | none => d
  | some v => if v = 0 then d else v

/-- `EntityTransform` — translation, non-uniform scale and rotation
(radians, converted from degrees at creation time). -/
structure EntityTransform where
  x : ℝ
  y : ℝ
  scaleX : ℝ
  scaleY : ℝ
  rotation : ℝ

/-- `applyTransform` — scale, then rotate, then translate; a missing
transform returns the point unchanged. -/
noncomputable def applyTransform (point : RPt) (transform : Option EntityTransform) : RPt :=
  match transform with
  | none => point
  | some t =>
    let px := point.x * t.scaleX
    let py := point.y * t.scaleY
    let c := Real.cos t.rotation
    let s := Real.sin t.rotation
    let rotatedX := px * c - py * s
    let rotatedY := px * s + py * c
    ⟨rotatedX + t.x, rotatedY + t.y, some (jsOrR point.z 0)⟩

/-- `combineTransforms` — the parent transform is applied to the child's
translation, scales are multiplied componentwise and rotations are added. -/
noncomputable def combineTransforms (parent child : EntityTransform) : EntityTransform :=
  let c := Real.cos parent.rotation
  let s := Real.sin parent.rotation
  let scaledX := child.x * parent.scaleX
  let scaledY := child.y * parent.scaleY
  ⟨parent.x + (scaledX * c - scaledY * s),
   parent.y + (scaledX * s + scaledY * c),
   parent.scaleX * child.scaleX,
   parent.scaleY * child.scaleY,
   parent.rotation + child.rotation⟩

/-- JavaScript `String.prototype.includes` on character lists. -/
def listIncludes : List Char → List Char → Bool
  | [], sub => sub.isPrefixOf []
  | c :: t, sub => sub.isPrefixOf (c :: t) || listIncludes t sub

/-- JavaScript `s.includes(sub)`. -/
def strIncludes (s sub : String) : Bool :=
  listIncludes s.toList sub.toList

/-- A duck-typed DXF entity record: exactly the fields the flatteners read.
All fields except `type` may be absent, as in the parsed JavaScript
objects. -/
structure DuckEntity where
  type : String
  name : Option String
  position : Option RPt
  scale : Option RPt
  rotation : Option ℝ
  vertices : Option (List RPt)
  startPt : Option RPt
  endPt : Option RPt
  center : Option RPt
  radius : Option ℝ
  startAngle : Option ℝ
  endAngle : Option ℝ
  controlPoints : Option (List RPt)
  closed : Option Bool
  colorStr : Option String

/-- A named block: a possibly-missing entity list. -/
structure DuckBlock where
  entities : Option (List DuckEntity)

/-- A parsed document: top-level entities plus the block table. -/
structure DuckDxf where
  entities : List DuckEntity
  blocks : Option (List (String × DuckBlock))

/-- `dxf.blocks?.[name]` — block-table lookup. -/
def lookupBlock (dxf : DuckDxf) (name : String) : Option DuckBlock :=
  match dxf.blocks with
  | none => none
  | some bs => (bs.find? (fun nb => nb.1 == name)).map (fun nb => nb.2)

/-- Output entity of the simple extractor: a type tag plus flattened
vertices (layer and color are carried through unchanged and omitted here). -/
structure SimpleDxfEntity where
  type : String
  vertices : List RPt

/-- `processLine` (simple extractor): vertex-list form, or the old
`start`/`end` form when fewer than two vertices are present. -/
noncomputable def sdeProcessLine (entity : DuckEntity)
    (transform : Option EntityTransform) : List SimpleDxfEntity :=
  match entity.vertices with
  | some vs =>
    if vs.length < 2 then
      match entity.startPt, entity.endPt with
      | some s, some e =>
        [⟨"LINE", [applyTransform s transform, applyTransform e transform]⟩]
      | _, _ => []
    else [⟨"LINE", vs.map (fun v => applyTransform v transform)⟩]
  | none =>
    match entity.startPt, entity.endPt with
    | some s, some e =>
      [⟨"LINE", [applyTransform s transform, applyTransform e transform]⟩]
    | _, _ => []

/-- `processPolyline` (simple extractor). -/
noncomputable def sdeProcessPolyline (entity : DuckEntity)
    (transform : Option EntityTransform) : List SimpleDxfEntity :=
  match entity.vertices with
  | some vs =>
    if vs.length < 2 then []
    else [⟨entity.type, vs.map (fun v => applyTransform v transform)⟩]
  | none => []

/-- `processCircle` (simple extractor): 32-segment polygonal approximation. -/
noncomputable def sdeProcessCircle (entity : DuckEntity)
    (transform : Option EntityTransform) : List SimpleDxfEntity :=
  match entity.center, entity.radius with
  | some c, some r =>
    if r = 0 then []
    else
      [⟨"CIRCLE",
        (List.range 33).map (fun i =>
          let angle := ((i : ℝ) / 32) * (2 * π)
          applyTransform ⟨c.x + r * Real.cos angle, c.y + r * Real.sin angle,
            some (jsOrR c.z 0)⟩ transform)⟩]
  | _, _ => []

/-- `processArc` (simple extractor): 32-segment sampling of the angle
range. -/
noncomputable def sdeProcessArc (entity : DuckEntity)
    (transform : Option EntityTransform) : List SimpleDxfEntity :=
  match entity.center, entity.radius with
  | some c, some r =>
    if r = 0 then []
    else
      let startAngle := jsOrR entity.startAngle 0
      let endAngle := jsOrR entity.endAngle (2 * π)
      [⟨"ARC",
        (List.range 33).map (fun i =>
          let t := (i : ℝ) / 32
          let angle := startAngle + t * (endAngle - startAngle)
          applyTransform ⟨c.x + r * Real.cos angle, c.y + r * Real.sin angle,
            some (jsOrR c.z 0)⟩ transform)⟩]
  | _, _ => []

/-- `processSpline` (simple extractor): control-point chords. -/
noncomputable def sdeProcessSpline (entity : DuckEntity)
    (transform : Option EntityTransform) : List SimpleDxfEntity :=
  match entity.controlPoints with
  | some ps =>
    if ps.length < 2 then []
    else [⟨"SPLINE", ps.map (fun p => applyTransform p transform)⟩]
  | none => []

/-- `processEntity`/`processInsert` of the simple extractor.  The `INSERT`
case resolves the named block, builds this reference's transform (degrees to
radians, optional 50× exaggeration for specific block-name substrings,
position zeroed in ignore-position mode), combines it with the inherited
parent transform, and recurses into the block's entities; a missing name,
missing block or missing entity list returns silently with no output.  The
source recursion is unbounded (a cyclic document would overflow the JS
stack); `fuel` bounds the nesting depth here. -/
noncomputable def sdeProcessEntity :
    ℕ → DuckDxf → DuckEntity → Option EntityTransform → Bool → List SimpleDxfEntity
  | fuel, dxf, entity, transform, ignorePosition =>
    if entity.type = "LINE" then sdeProcessLine entity transform
    else if entity.type = "POLYLINE" ∨ entity.type = "LWPOLYLINE" then
      sdeProcessPolyline entity transform
    else if entity.type = "INSERT" then
      match entity.name with
      | none => []
      | some nm =>
        if nm = "" then []
        else
          match lookupBlock dxf nm with
          | none => []
          | some block =>
            match block.entities with
            | none => []
            | some ents =>
              let extraScale : ℝ :=
                if strIncludes nm "TV_CAMERAMAN_PL" || strIncludes nm "camera_man" ||
                    strIncludes nm "female_model" then 50 else 1
              let t : EntityTransform :=
                ⟨if ignorePosition then 0 else jsOrR (entity.position.map (fun p => p.x)) 0,
                 if ignorePosition then 0 else jsOrR (entity.position.map (fun p => p.y)) 0,
                 jsOrR (entity.scale.map (fun p => p.x)) 1 * extraScale,
                 jsOrR (entity.scale.map (fun p => p.y)) 1 * extraScale,
                 jsOrR entity.rotation 0 * π / 180⟩
              let finalTransform :=
                match transform with
                | some parent => combineTransforms parent t
                | none => t
              match fuel with
              | 0 => []
              | f + 1 =>
                ents.flatMap (fun be =>
                  sdeProcessEntity f dxf be (some finalTransform) ignorePosition)
    else if entity.type = "CIRCLE" then sdeProcessCircle entity transform
    else if entity.type = "ARC" then sdeProcessArc entity transform
    else if entity.type = "SPLINE" then sdeProcessSpline entity transform
    else []

/-- The entity pass of `extractSimpleEntities`: process every top-level
entity with no inherited transform. -/
noncomputable def sdeExtract (fuel : ℕ) (dxf : DuckDxf) (ignorePosition : Bool) :
    List SimpleDxfEntity :=
  dxf.entities.flatMap (fun e => sdeProcessEntity fuel dxf e none ignorePosition)

end DxfReal

section DxfReal2

open Real

/-- A batched line segment of the `EntityProcessor` (the source groups
segments per color in `lineBatches`; the model keeps one ordered list with
the color tag, which carries the same information). -/
structure EPSeg where
  color : String
  x1 : ℝ
  y1 : ℝ
  x2 : ℝ
  y2 : ℝ

/-- The `EntityProcessor` state restricted to its line output (circles,
arcs, texts and per-layer bounds accumulate into separate result lists that
no verified claim reads; they are omitted). -/
structure EPState where
  lines : List EPSeg

/-- `addLine` — append one segment. -/
def epAddLine (st : EPState) (color : String) (x1 y1 x2 y2 : ℝ) : EPState :=
  ⟨st.lines ++ [⟨color, x1, y1, x2, y2⟩]⟩

/-- `getColor` — the string-color case; the numeric/ACI fallbacks map to
strings the same way and are not distinguished by any claim. -/
def getColor (entity : DuckEntity) : String :=
  match entity.colorStr with
  | some c => c
  | none => "#000000"

/-- `transformPoint` — recentre a point (`toPrecise` clamps to 8 decimals in
JavaScript; on exact reals it is the identity and is omitted). -/
def transformPoint (point : RPt) (centerX centerY : ℝ) : RPt :=
  ⟨point.x - centerX, point.y - centerY, none⟩

/-- `createPlaceholder` — a 50-unit cross mark at the (recentred) insertion
point: one horizontal and one vertical segment. -/
def createPlaceholder (position : RPt) (color : String) (centerX centerY : ℝ)
    (st : EPState) : EPState :=
  let size : ℝ := 50
  let pos := transformPoint position centerX centerY
  epAddLine (epAddLine st color (pos.x - size) pos.y (pos.x + size) pos.y)
    color pos.x (pos.y - size) pos.x (pos.y + size)

/-- `EntityProcessor.processLine`. -/
def epProcessLine (entity : DuckEntity) (color : String) (centerX centerY : ℝ)
    (st : EPState) : EPState :=
  match entity.startPt, entity.endPt with
  | some s, some e =>
    let s' := transformPoint s centerX centerY
    let e' := transformPoint e centerX centerY
    epAddLine st color s'.x s'.y e'.x e'.y
  | _, _ => st

/-- `EntityProcessor.processLWPolyline`/`processPolyline` (identical bodies):
consecutive segments, wrapping around when the polyline is closed. -/
def epProcessPolylineSegs (entity : DuckEntity) (color : String) (centerX centerY : ℝ)
    (st : EPState) : EPState :=
  let vs := entity.vertices.getD []
  if vs.length < 2 then st
  else
    let tvs := vs.map (fun v => transformPoint v centerX centerY)
    let isClosed := entity.closed.getD false
    let maxIndex := if isClosed then tvs.length else tvs.length - 1
    (List.range maxIndex).foldl
      (fun st i =>
        let v1 := tvs.getD i ⟨0, 0, none⟩
        let v2 := tvs.getD ((i + 1) % tvs.length) ⟨0, 0, none⟩
        epAddLine st color v1.x v1.y v2.x v2.y)
      st

/-- `EntityProcessor.processSpline`: chords between consecutive control
points. -/
def epProcessSplineSegs (entity : DuckEntity) (color : String) (centerX centerY : ℝ)
    (st : EPState) : EPState :=
  match entity.controlPoints with
  | some cps =>
    if cps.length > 1 then
      let pts := cps.map (fun p => transformPoint p centerX centerY)
      (List.range (pts.length - 1)).foldl
        (fun st i =>
          let p1 := pts.getD i ⟨0, 0, none⟩
          let p2 := pts.getD (i + 1) ⟨0, 0, none⟩
          epAddLine st color p1.x p1.y p2.x p2.y)
        st
    else st
  | none => st

/-- The non-recursive dispatch of `EntityProcessor.processEntity`: every
entity kind except `INSERT` emits its segments directly (kinds that feed the
unmodelled circle/arc/text lists leave the line state unchanged). -/
def epProcessSimple (entity : DuckEntity) (centerX centerY : ℝ) (st : EPState) : EPState :=
  let color := getColor entity
  if entity.type = "LINE" then epProcessLine entity color centerX centerY st
  else if entity.type = "LWPOLYLINE" then epProcessPolylineSegs entity color centerX centerY st
  else if entity.type = "POLYLINE" then epProcessPolylineSegs entity color centerX centerY st
  else if entity.type = "SPLINE" then epProcessSplineSegs entity color centerX centerY st
  else st

/-- `EntityProcessor.processInsert`.  A missing insertion point returns the
state unchanged; a missing block, or a block with no entities, emits the
cross placeholder; otherwise every block entity is transformed by this
reference's scale → rotation → insertion-point translation and re-processed
(nested `INSERT`s recurse with the parent's color; polylines and splines are
re-dispatched explicitly as in the source).  `fuel` bounds the unbounded
source recursion. -/
noncomputable def epProcessInsert :
    ℕ → DuckDxf → ℝ → ℝ → DuckEntity → String → EPState → EPState
  | fuel, dxf, centerX, centerY, entity, color, st =>
    match entity.position with
    | none => st
    | some pos =>
      match (match entity.name with | some nm => lookupBlock dxf nm | none => none) with
      | none => createPlaceholder pos color centerX centerY st
      | some block =>
        match block.entities with
        | none => createPlaceholder pos color centerX centerY st
        | some [] => createPlaceholder pos color centerX centerY st
        | some (e0 :: erest) =>
          match fuel with
          | 0 => st
          | f + 1 =>
            let extraScale : ℝ :=
              if (match entity.name with
                  | some nm => strIncludes nm "TV_CAMERAMAN_PL" ||
                      strIncludes nm "camera_man" || strIncludes nm "female_model"
                  | none => false) then 50 else 1
            let scaleX := jsOrR (entity.scale.map (fun p => p.x)) 1 * extraScale
            let scaleY := jsOrR (entity.scale.map (fun p => p.y)) 1 * extraScale
            let rotation := jsOrR entity.rotation 0
            let c := Real.cos (rotation * π / 180)
            let s := Real.sin (rotation * π / 180)
            let tbp : RPt → RPt := fun p =>
              let x := p.x * scaleX
              let y := p.y * scaleY
              ⟨x * c - y * s + pos.x, x * s + y * c + pos.y, none⟩
            (e0 :: erest).foldl
              (fun st be =>
                let te : DuckEntity :=
                  { be with
                    startPt := be.startPt.map tbp
                    endPt := be.endPt.map tbp
                    center := be.center.map tbp
                    position := be.position.map tbp
                    vertices := be.vertices.map (fun vs => vs.map tbp)
                    controlPoints := be.controlPoints.map (fun ps => ps.map tbp) }
                if te.type = "INSERT" then
                  epProcessInsert f dxf centerX centerY te color st
                else if (te.type = "POLYLINE" ∨ te.type = "LWPOLYLINE") ∧
                    1 < (te.vertices.getD []).length then
                  epProcessPolylineSegs te color centerX centerY st
                else if te.type = "SPLINE" ∧ 1 < (te.controlPoints.getD []).length then
                  epProcessSplineSegs te color centerX centerY st
                else epProcessSimple te centerX centerY st)
              st

/-- `EntityProcessor.processEntity`: dispatch to the insert handler or the
non-recursive kinds. -/
noncomputable def epProcessEntity (fuel : ℕ) (dxf : DuckDxf) (centerX centerY : ℝ)
    (entity : DuckEntity) (st : EPState) : EPState :=
  if entity.type = "INSERT" then
    epProcessInsert fuel dxf centerX centerY entity (getColor entity) st
  else epProcessSimple entity centerX centerY st

/-- The `dxf.entities.forEach(processEntity)` driver loop. -/
noncomputable def epProcessEntities (fuel : ℕ) (dxf : DuckDxf) (centerX centerY : ℝ)
    (entities : List DuckEntity) (st : EPState) : EPState :=
  entities.foldl (fun st e => epProcessEntity fuel dxf centerX centerY e st) st

/-- `Math.atan2(y, x)`: the standard four-quadrant arctangent. -/
noncomputable def myAtan2 (y x : ℝ) : ℝ :=
  if 0 < x then Real.arctan (y / x)
  else if x < 0 ∧ 0 ≤ y then Real.arctan (y / x) + π
  else if x < 0 ∧ y < 0 then Real.arctan (y / x) - π
  else if x = 0 ∧ 0 < y then π / 2
  else if x = 0 ∧ y < 0 then -(π / 2)
  else 0

/-- A `THREE.Vector3`-like sample point. -/
structure Vec3R where
  x : ℝ
  y : ℝ
  z : ℝ

/-- `interpolateBulgePoints` — a zero bulge returns the straight two-point
segment; otherwise the implied arc through the chord's sagitta midpoint is
solved and sampled at `segments + 1` points from `v1` to `v2`, clockwise for
negative bulge.  (`chord.multiplyScalar(0.5)` mutates the chord in the
source, so the perpendicular is built from the half chord; `normalize`
divides by `length || 1`.) -/
noncomputable def interpolateBulgePoints (v1 v2 : RPt) (bulge : ℝ)
    (segments : ℕ := 16) : List Vec3R :=
  if bulge = 0 then
    [⟨v1.x, v1.y, jsOrR v1.z 0⟩, ⟨v2.x, v2.y, jsOrR v2.z 0⟩]
  else
    let chordX := v2.x - v1.x
    let chordY := v2.y - v1.y
    let length := Real.sqrt (chordX ^ 2 + chordY ^ 2)
    let sagitta := bulge * length / 2
    let midX := v1.x + chordX * (1 / 2)
    let midY := v1.y + chordY * (1 / 2)
    let hx := chordX * (1 / 2)
    let hy := chordY * (1 / 2)
    let plen := Real.sqrt ((-hy) ^ 2 + hx ^ 2)
    let pd := if plen = 0 then 1 else plen
    let perpX := -hy / pd * sagitta
    let perpY := hx / pd * sagitta
    let centerX := midX + perpX
    let centerY := midY + perpY
    let radius := Real.sqrt ((centerX - v1.x) ^ 2 + (centerY - v1.y) ^ 2)
    let startAngle := myAtan2 (v1.y - centerY) (v1.x - centerX)
    let endAngle0 := myAtan2 (v2.y - centerY) (v2.x - centerX)
    let clockwise := bulge < 0
    let endAngle :=
      if clockwise ∧ startAngle < endAngle0 then endAngle0 - π * 2
      else if ¬clockwise ∧ endAngle0 < startAngle then endAngle0 + π * 2
      else endAngle0
    (List.range (segments + 1)).map (fun i =>
      let t := (i : ℝ) / (segments : ℝ)
      let angle := startAngle + t * (endAngle - startAngle)
      ⟨centerX + radius * Real.cos angle, centerY + radius * Real.sin angle,
       jsOrR v1.z 0⟩)

end DxfReal2

/-! Example inputs used by counterexamples and witnesses. -/

/-- A table area `[0,12] × [0,10]` with 4×4 tables, spacing 1, 10 seats per
table, and 1×1 chairs (row groups of 2) — two table columns of two rows fit. -/
def chairMixExample : SingleChairConfig :=
  ⟨1, 1, 0, none, some 2⟩

/-- Table config for the mixed example. -/
def cfgMixExample : TableConfig :=
  ⟨4, 4, 10, 1, 1, none, none, 0, 0, 12, 10, none, some chairMixExample, none⟩

/-- A door strictly left of the area `[0,4] × [0,10]` (raw span `[-5,-1]`,
vertical span `[-10,2]`): it passes the column-span test at `x = 0` but the
centre-based per-unit test overlaps the first row. -/
def doorLeftExample : DoorArea :=
  ⟨⟨-5, 2⟩, ⟨-1, 2⟩, ⟨-1, -10⟩, ⟨-5, -10⟩, none⟩

/-- Single-column area `[0,4] × [0,10]` for the partial-column
counterexample. -/
def cfgNarrowExample : TableConfig :=
  ⟨4, 4, 8, 1, 1, none, none, 0, 0, 4, 10, none, none, none⟩

/-- A right-trapezoid area: bottom edge runs from `(4,0)` to `(10,0)`, so the
bounding box `[0,10] × [0,10]` strictly contains the polygon. -/
def trapezoidPoints : TableAreaPoints :=
  ⟨⟨0, 10⟩, ⟨10, 10⟩, ⟨10, 0⟩, ⟨4, 0⟩⟩

/-- Tables-only config over the trapezoid polygon. -/
def cfgTrapezoid : TableConfig :=
  ⟨4, 4, 4, 1, 1, none, none, 0, 0, 0, 0, some trapezoidPoints, none, some "tables-only"⟩

/-- A far-away door (raw span `[100,101]`) that never interferes — used to
witness invariant theorems on a nonempty placement. -/
def doorFarExample : DoorArea :=
  ⟨⟨100, 1⟩, ⟨101, 1⟩, ⟨101, 0⟩, ⟨100, 0⟩, none⟩

/-- 1×1 chairs with row groups of 4: ten raw rows fit in height 10 but only
eight survive the whole-group rounding. -/
def chairLossExample : SingleChairConfig :=
  ⟨1, 1, 0, none, some 4⟩

/-- Parent transform with non-uniform scale `(2,1)` and no rotation. -/
noncomputable def cexParent : EntityTransform := ⟨0, 0, 2, 1, 0⟩

/-- Child transform: a pure 90° rotation (radians, as built by
`processInsert`). -/
noncomputable def cexChild : EntityTransform := ⟨0, 0, 1, 1, Real.pi / 2⟩

/-- The probed block-local point `(1, 0)`. -/
def cexPoint : RPt := ⟨1, 0, none⟩

/-- An `INSERT` referencing a block name absent from the block table. -/
def ghostInsert : DuckEntity :=
  ⟨"INSERT", some "GHOST", some ⟨5, 7, none⟩, none, none, none, none, none,
   none, none, none, none, none, none, none⟩

/-- A document whose block table does not contain `"GHOST"`. -/
def ghostDxf : DuckDxf :=
  ⟨[ghostInsert], some []⟩

/-- A plain line entity following the unresolvable insert. -/
def lineAfterGhost : DuckEntity :=
  ⟨"LINE", none, none, none, none, none, some ⟨0, 0, none⟩, some ⟨1, 1, none⟩,
   none, none, none, none, none, none, none⟩

/-- A document with an unresolvable `INSERT` followed by a line. -/
def ghostThenLineDxf : DuckDxf :=
  ⟨[ghostInsert, lineAfterGhost], some []⟩

/-- Number of column start positions the tables-only sweep visits from `x`
before running off the right edge (each fitting column advances the cursor by
`width + columnSpacing`). -/
def tablesColsFit (cfg : TableConfig) (b : Bounds) (x : ℚ) : ℕ :=
  if x + cfg.width ≤ b.maxX then
    (⌊(b.maxX - x - cfg.width) / (cfg.width + cfg.columnSpacing)⌋ : ℤ).toNat + 1
  else 0

/-- Number of row slots of a tables-only column whose table also passes the
bottom-edge check `rowY + height ≤ maxY`. -/
def tablesEffRows (cfg : TableConfig) (b : Bounds) (maxTablesPerColumn : ℕ) : ℕ :=
  ((List.range maxTablesPerColumn).filter
    (fun row => decide (tableRowY cfg b row + cfg.height ≤ b.maxY))).length

/-- Two-column, two-row area `[0,9] × [0,10]` with eight chairs per table:
requesting 30 guests seats 32 (four tables), the spec's overshoot example. -/
def cfgCapacityExample : TableConfig :=
  ⟨4, 4, 8, 1, 1, none, none, 0, 0, 9, 10, none, none, none⟩

/-! Theorems. -/

/-- C7: `interpolateBulgePoints(v1, v2, 0)` returns exactly the two-point
straight segment `[v1, v2]` (with `z` defaulted via `z || 0`), with no
intermediate sample points, for any two distinct vertices. -/
theorem interpolateBulgePoints_zero_bulge (v1 v2 : RPt) (segments : ℕ)
    (_h : v1 ≠ v2) :
    interpolateBulgePoints v1 v2 0 segments =
      [⟨v1.x, v1.y, jsOrR v1.z 0⟩, ⟨v2.x, v2.y, jsOrR v2.z 0⟩] := by
  unfold interpolateBulgePoints
  simp

/-- Witness for C7 at `v1 = (0,0)`, `v2 = (1,0)`. -/
theorem interpolateBulgePoints_zero_bulge_witness :
    (⟨0, 0, none⟩ : RPt) ≠ (⟨1, 0, none⟩ : RPt) ∧
    interpolateBulgePoints ⟨0, 0, none⟩ ⟨1, 0, none⟩ 0 16 =
      [⟨0, 0, jsOrR none 0⟩, ⟨1, 0, jsOrR none 0⟩] := by
  have hne : (⟨0, 0, none⟩ : RPt) ≠ (⟨1, 0, none⟩ : RPt) := by
    intro h
    have := congrArg RPt.x h
    norm_num at this
  exact ⟨hne, interpolateBulgePoints_zero_bulge _ _ 16 hne⟩

/-- Stage used by the C8 witness: 90° rotation, width 1140, no height. -/
def stageExample : StageConfigQ := ⟨950, 1520, some 1140, none, some 90⟩

/-- Base area used by the C8 witness. -/
def stageBasePoints : TableAreaPoints :=
  ⟨⟨1670, 2085⟩, ⟨3000, 2085⟩, ⟨3000, 1055⟩, ⟨1670, 1055⟩⟩

/-- Table config carrying `stageBasePoints`. -/
def cfgStageBaseExample : TableConfig :=
  ⟨4, 4, 8, 1, 1, none, none, 0, 0, 0, 0, some stageBasePoints, none, none⟩

/-- C8: the stage-relative area adjustment keeps `topRight`/`bottomRight`
and the left corners' Y coordinates from the base area, sets
`topLeft.x = bottomLeft.x` to the stage's right edge plus the configured
clearance (15 ft converted to drawing units when the unit string is known),
and the right edge uses the footprint height instead of the width exactly
when the rotation is 90°. -/
theorem calculateStageTablePoints_fixed_corners (stage : StageConfigQ)
    (cfg : TableConfig) (minD maxD : ℚ) (units : Option String)
    (dxf : Option DxfNaturalSize) (base : TableAreaPoints)
    (hnp : cfg.namedPoints = some base) :
    ∃ pts, calculateStageTablePoints stage cfg minD maxD units dxf = some pts ∧
      pts.topRight = base.topRight ∧
      pts.bottomRight = base.bottomRight ∧
      pts.topLeft.x = pts.bottomLeft.x ∧
      pts.topLeft.x = getStageRightEdge stage dxf +
        jsOrQ (units.map (convertFeetToDXFUnits maxD)) 0 ∧
      pts.topLeft.y = base.topLeft.y ∧
      pts.bottomLeft.y = base.bottomLeft.y ∧
      (jsOrQ stage.rotation 0 = 90 →
        getStageRightEdge stage dxf = stage.x + (resolvedStageDims stage dxf).2 / 2) ∧
      (jsOrQ stage.rotation 0 ≠ 90 →
        getStageRightEdge stage dxf = stage.x + (resolvedStageDims stage dxf).1 / 2) := by
  refine ⟨⟨⟨getStageRightEdge stage dxf + jsOrQ (units.map (convertFeetToDXFUnits maxD)) 0,
      base.topLeft.y⟩,
    base.topRight, base.bottomRight,
    ⟨getStageRightEdge stage dxf + jsOrQ (units.map (convertFeetToDXFUnits maxD)) 0,
      base.bottomLeft.y⟩⟩,
    ?_, rfl, rfl, rfl, rfl, rfl, rfl, ?_, ?_⟩
  · simp [calculateStageTablePoints, getTableAreaPoints, hnp]
  · intro h
    simp [getStageRightEdge, h]
  · intro h
    simp [getStageRightEdge, h]

/-- Witness for C8: a 90°-rotated stage with defaulted height over a concrete
base area, metres as drawing units. -/
theorem calculateStageTablePoints_fixed_corners_witness :
    cfgStageBaseExample.namedPoints = some stageBasePoints ∧
    (∃ pts, calculateStageTablePoints stageExample cfgStageBaseExample 12 15
        (some "meters") none = some pts ∧
      pts.topRight = stageBasePoints.topRight ∧
      pts.bottomRight = stageBasePoints.bottomRight ∧
      pts.topLeft.x = pts.bottomLeft.x ∧
      pts.topLeft.x = getStageRightEdge stageExample none +
        jsOrQ ((some "meters").map (convertFeetToDXFUnits 15)) 0 ∧
      pts.topLeft.y = stageBasePoints.topLeft.y ∧
      pts.bottomLeft.y = stageBasePoints.bottomLeft.y ∧
      (jsOrQ stageExample.rotation 0 = 90 →
        getStageRightEdge stageExample none =
          stageExample.x + (resolvedStageDims stageExample none).2 / 2) ∧
      (jsOrQ stageExample.rotation 0 ≠ 90 →
        getStageRightEdge stageExample none =
          stageExample.x + (resolvedStageDims stageExample none).1 / 2)) :=
  ⟨rfl, calculateStageTablePoints_fixed_corners stageExample cfgStageBaseExample 12 15
    (some "meters") none stageBasePoints rfl⟩

/-- The effective chair `rowsPerGroup` (the `|| 999` default) is never zero. -/
theorem jsOrQ_999_ne_zero (o : Option ℚ) : jsOrQ o 999 ≠ 0 := by
  unfold jsOrQ
  match o with
  | none => norm_num
  | some v =>
    by_cases hv : v = 0
    · simp [hv]
    · simp [hv]

/-- C10: every single-chair capacity computation — the chairs-only packer and
the smart-mix chair columns (both read `chairColumnCapacity` of the area
height, see `placeChairsOnly` and `smartMixStep`), and the chair-position
estimate of `calculateSingleChairPositions` — yields a whole multiple of the
effective chair `rowsPerGroup`; and the rounding can strictly lose capacity
(ten raw rows collapse to eight with groups of four). -/
theorem chairColumnCapacity_whole_row_groups :
    (∀ (availableHeight : ℚ) (chair : SingleChairConfig) (rgs : Option ℚ),
      ∃ k : ℤ, chairColumnCapacity availableHeight chair rgs =
        (k : ℚ) * jsOrQ chair.rowsPerGroup 999) ∧
    (∀ (cfg : TableConfig) (availableHeight : ℚ) (chair : SingleChairConfig),
      cfg.singleChair = some chair →
      ∃ k : ℤ, smartMixMaxChairsPerColumn cfg availableHeight =
        (k : ℚ) * jsOrQ chair.rowsPerGroup 999) ∧
    chairColumnCapacityRaw 10 chairLossExample none = 10 ∧
    chairColumnCapacity 10 chairLossExample none = 8 := by
  have hmain : ∀ (availableHeight : ℚ) (chair : SingleChairConfig) (rgs : Option ℚ),
      ∃ k : ℤ, chairColumnCapacity availableHeight chair rgs =
        (k : ℚ) * jsOrQ chair.rowsPerGroup 999 := by
    intro aH chair rgs
    unfold chairColumnCapacity
    by_cases h : jsMod (chairColumnCapacityRaw aH chair rgs) (jsOrQ chair.rowsPerGroup 999) ≠ 0
    · exact ⟨⌊chairColumnCapacityRaw aH chair rgs / jsOrQ chair.rowsPerGroup 999⌋,
        by rw [if_pos h]⟩
    · rw [not_not] at h
      refine ⟨jsTrunc (chairColumnCapacityRaw aH chair rgs / jsOrQ chair.rowsPerGroup 999), ?_⟩
      rw [if_neg (by rw [not_not]; exact h)]
      have hm0 : chairColumnCapacityRaw aH chair rgs -
          jsOrQ chair.rowsPerGroup 999 *
            jsTrunc (chairColumnCapacityRaw aH chair rgs / jsOrQ chair.rowsPerGroup 999) = 0 := h
      have h2 := sub_eq_zero.mp hm0
      rw [mul_comm] at h2
      exact h2
  refine ⟨hmain, ?_, ?_, ?_⟩
  · intro cfg aH chair hsc
    have := hmain aH chair cfg.rowGroupSpacing
    simpa [smartMixMaxChairsPerColumn, hsc] using this
  · norm_num [chairColumnCapacityRaw, chairLossExample, jsOrQ]
  · norm_num [chairColumnCapacity, chairColumnCapacityRaw, chairLossExample, jsOrQ, jsMod,
      jsTrunc]

/-- Re-defaulting an already-defaulted `z` is a no-op. -/
theorem jsOrR_some_jsOrR (o : Option ℝ) : jsOrR (some (jsOrR o 0)) 0 = jsOrR o 0 := by
  unfold jsOrR
  match o with
  | none => simp
  | some v =>
    by_cases hv : v = 0
    · simp [hv]
    · simp [hv]

/-- C6 (counterexample): with a non-uniform parent scale `(2,1)` and a pure
90° child rotation, the flattener's combined transform applied to the block
point `(1,0)` gives `(0,2)`, while the manual parent ∘ child composition
gives `(0,1)` — so nested-`INSERT` flattening does **not** equal applying
the child transform and then the parent's full transform. -/
theorem combineTransforms_not_parent_compose_child :
    (applyTransform cexPoint (some (combineTransforms cexParent cexChild))).y = 2 ∧
    (applyTransform (applyTransform cexPoint (some cexChild)) (some cexParent)).y = 1 ∧
    applyTransform cexPoint (some (combineTransforms cexParent cexChild)) ≠
      applyTransform (applyTransform cexPoint (some cexChild)) (some cexParent) := by
  have h1 : (applyTransform cexPoint (some (combineTransforms cexParent cexChild))).y = 2 := by
    simp [applyTransform, combineTransforms, cexParent, cexChild, cexPoint,
      Real.cos_pi_div_two, Real.sin_pi_div_two]
  have h2 : (applyTransform (applyTransform cexPoint (some cexChild)) (some cexParent)).y = 1 := by
    simp [applyTransform, combineTransforms, cexParent, cexChild, cexPoint,
      Real.cos_pi_div_two, Real.sin_pi_div_two]
  refine ⟨h1, h2, fun h => ?_⟩
  rw [congrArg RPt.y h, h2] at h1
  norm_num at h1

/-- C6 (amended): when the parent's scale is uniform
(`scaleX = scaleY`), applying the combined transform of
`combineTransforms` equals applying the child's scale-rotate-translate and
then the parent's full transform (parent ∘ child), for every child
transform — 90° rotations and non-uniform child scales included. -/
theorem combineTransforms_parent_compose_child_of_uniform_scale
    (parent child : EntityTransform) (p : RPt)
    (hs : parent.scaleX = parent.scaleY) :
    applyTransform p (some (combineTransforms parent child)) =
      applyTransform (applyTransform p (some child)) (some parent) := by
  obtain ⟨xp, yp, sxp, syp, rp⟩ := parent
  obtain ⟨xc, yc, sxc, syc, rc⟩ := child
  simp only at hs
  subst hs
  simp only [applyTransform, combineTransforms, jsOrR_some_jsOrR, RPt.mk.injEq]
  refine ⟨?_, ?_, trivial⟩
  · rw [Real.cos_add, Real.sin_add]; ring
  · rw [Real.cos_add, Real.sin_add]; ring

/-- Witness for the amended C6 at a uniform parent scale `(2,2)` with 90°
parent rotation and a child with non-uniform scale `(5,7)` and 180°
rotation. -/
theorem combineTransforms_parent_compose_child_witness :
    (⟨3, 4, 2, 2, Real.pi / 2⟩ : EntityTransform).scaleX =
      (⟨3, 4, 2, 2, Real.pi / 2⟩ : EntityTransform).scaleY ∧
    applyTransform ⟨1, 1, none⟩
        (some (combineTransforms ⟨3, 4, 2, 2, Real.pi / 2⟩ ⟨1, 2, 5, 7, Real.pi⟩)) =
      applyTransform (applyTransform ⟨1, 1, none⟩ (some ⟨1, 2, 5, 7, Real.pi⟩))
        (some ⟨3, 4, 2, 2, Real.pi / 2⟩) :=
  ⟨rfl, combineTransforms_parent_compose_child_of_uniform_scale _ _ _ rfl⟩

/-- C9 (counterexample): in the simple extractor (`simpleDxfExtractor.ts`),
an `INSERT` whose named block is absent from the block table emits **no**
placeholder primitive — `processInsert` returns silently, and only the
following entities' output appears.  This refutes the claim that the
flattener always emits a cross-mark placeholder for unresolvable block
references (the claim holds for the `EntityProcessor` flattener, see the
amended theorem). -/
theorem sdeProcessEntity_missing_block_no_placeholder :
    sdeExtract 10 ghostThenLineDxf false =
      [⟨"LINE", [⟨0, 0, none⟩, ⟨1, 1, none⟩]⟩] := by
  simp [sdeExtract, ghostThenLineDxf, ghostInsert, lineAfterGhost, sdeProcessEntity,
    lookupBlock, sdeProcessLine, applyTransform]

/-- C9 (amended): the `EntityProcessor` flattener never throws on an
`INSERT` whose block is missing from the table (or present but without
entities): it appends exactly the two crossing 50-unit placeholder segments
centred at the recentred insertion point and continues processing the
remaining entities unchanged. -/
theorem epProcessEntities_missing_block_placeholder
    (fuel : ℕ) (dxf : DuckDxf) (cX cY : ℝ) (entity : DuckEntity)
    (rest : List DuckEntity) (st : EPState) (pos : RPt)
    (htype : entity.type = "INSERT") (hpos : entity.position = some pos)
    (hblock :
      (match entity.name with | some nm => lookupBlock dxf nm | none => none) = none ∨
      ∃ blk,
        (match entity.name with | some nm => lookupBlock dxf nm | none => none) = some blk ∧
        (blk.entities = none ∨ blk.entities = some [])) :
    epProcessEntities fuel dxf cX cY (entity :: rest) st =
      epProcessEntities fuel dxf cX cY rest
        ⟨st.lines ++
          [⟨getColor entity, pos.x - cX - 50, pos.y - cY, pos.x - cX + 50, pos.y - cY⟩,
           ⟨getColor entity, pos.x - cX, pos.y - cY - 50, pos.x - cX, pos.y - cY + 50⟩]⟩ := by
  have hstep : epProcessEntity fuel dxf cX cY entity st =
      ⟨st.lines ++
        [⟨getColor entity, pos.x - cX - 50, pos.y - cY, pos.x - cX + 50, pos.y - cY⟩,
         ⟨getColor entity, pos.x - cX, pos.y - cY - 50, pos.x - cX, pos.y - cY + 50⟩]⟩ := by
    unfold epProcessEntity
    rw [if_pos htype]
    unfold epProcessInsert
    rcases hblock with hb | ⟨blk, hb, hents⟩
    · simp [hpos, hb, createPlaceholder, epAddLine, transformPoint]
    · rcases hents with he | he
      · simp [hpos, hb, he, createPlaceholder, epAddLine, transformPoint]
      · simp [hpos, hb, he, createPlaceholder, epAddLine, transformPoint]
  simp only [epProcessEntities, List.foldl_cons]
  rw [hstep]

/-- Witness for the amended C9: the `"GHOST"` insert against an empty block
table, followed by nothing, starting from the empty state. -/
theorem epProcessEntities_missing_block_placeholder_witness :
    ghostInsert.type = "INSERT" ∧
    ghostInsert.position = some ⟨5, 7, none⟩ ∧
    epProcessEntities 3 ghostDxf 0 0 [ghostInsert] ⟨[]⟩ =
      epProcessEntities 3 ghostDxf 0 0 []
        ⟨[] ++
          [⟨getColor ghostInsert, (5 : ℝ) - 0 - 50, (7 : ℝ) - 0, (5 : ℝ) - 0 + 50, (7 : ℝ) - 0⟩,
           ⟨getColor ghostInsert, (5 : ℝ) - 0, (7 : ℝ) - 0 - 50, (5 : ℝ) - 0, (7 : ℝ) - 0 + 50⟩]⟩ :=
  ⟨rfl, rfl,
    epProcessEntities_missing_block_placeholder 3 ghostDxf 0 0 ghostInsert [] ⟨[]⟩
      ⟨5, 7, none⟩ rfl rfl
      (Or.inl (by simp [ghostInsert, lookupBlock, ghostDxf]))⟩

/-- Fold steps that only ever append elements satisfying `P` preserve
membership facts: anything in the final accumulator was in the initial one
or satisfies `P`. -/
theorem foldl_mem_preserve {α β γ : Type} (f : α → β → α) (proj : α → List γ)
    (P : γ → Prop) (hf : ∀ st b, ∀ t ∈ proj (f st b), t ∈ proj st ∨ P t) :
    ∀ (l : List β) (st : α), ∀ t ∈ proj (l.foldl f st), t ∈ proj st ∨ P t := by
  intro l
  induction l with
  | nil => intro st t ht; exact Or.inl ht
  | cons b bs ih =>
    intro st t ht
    rw [List.foldl_cons] at ht
    rcases ih (f st b) t ht with h | h
    · exact hf st b t h
    · exact Or.inr h

/-- Every table placed by a `tablesOnlyColumn` pass sits at the column's X
and passed the per-unit door check. -/
theorem tablesOnlyColumn_mem (target : ℚ) (cfg : TableConfig) (doorAreas : List DoorArea)
    (b : Bounds) (maxT : ℕ) (x guests : ℚ) (idx : ℕ) :
    ∀ t ∈ (tablesOnlyColumn target cfg doorAreas b maxT x guests idx).1,
      t.x = x ∧
      isObjectInAnyDoorArea ⟨x, t.y, cfg.width, cfg.height, 0⟩ doorAreas = false := by
  intro t ht
  unfold tablesOnlyColumn at ht
  have := foldl_mem_preserve _ (fun st : List TablePos × ℚ × ℕ => st.1)
    (fun t => t.x = x ∧
      isObjectInAnyDoorArea ⟨x, t.y, cfg.width, cfg.height, 0⟩ doorAreas = false)
    ?_ (List.range maxT) ([], guests, idx) t ht
  · rcases this with h | h
    · simp at h
    · exact h
  · intro st row u hu
    dsimp only at hu
    split_ifs at hu with h1 h2 h3
    · exact Or.inl hu
    · rcases List.mem_append.mp hu with h | h
      · exact Or.inl h
      · rcases List.mem_singleton.mp h with rfl
        exact Or.inr ⟨rfl, Bool.not_eq_true _ ▸ (eq_false_of_ne_true h3)⟩
    · exact Or.inl hu
    · exact Or.inl hu

/-- Chairs-only column pass: placed chairs sit at the column's X and passed
the per-unit door check. -/
theorem chairsOnlyColumn_mem (target : ℚ) (cfg : TableConfig) (chair : SingleChairConfig)
    (doorAreas : List DoorArea) (b : Bounds) (maxRows : ℕ) (x guests : ℚ) (idx : ℕ) :
    ∀ c ∈ (chairsOnlyColumn target cfg chair doorAreas b maxRows x guests idx).1,
      c.x = x ∧
      isObjectInAnyDoorArea
        ⟨x, c.y, chair.width, chair.height, jsOrQ chair.rotation 0⟩ doorAreas = false := by
  intro c hc
  unfold chairsOnlyColumn at hc
  have := foldl_mem_preserve _ (fun st : List ChairPos × ℚ × ℕ => st.1)
    (fun c => c.x = x ∧
      isObjectInAnyDoorArea
        ⟨x, c.y, chair.width, chair.height, jsOrQ chair.rotation 0⟩ doorAreas = false)
    ?_ (List.range maxRows) ([], guests, idx) c hc
  · rcases this with h | h
    · simp at h
    · exact h
  · intro st row u hu
    dsimp only at hu
    split_ifs at hu with h1 h2 h3
    · exact Or.inl hu
    · rcases List.mem_append.mp hu with h | h
      · exact Or.inl h
      · rcases List.mem_singleton.mp h with rfl
        exact Or.inr ⟨rfl, eq_false_of_ne_true h3⟩
    · exact Or.inl hu
    · exact Or.inl hu

/-- Column-limited table pass: placed tables sit at the column's X and
passed the per-unit door check. -/
theorem tablesInColumnsColumn_mem (cfg : TableConfig) (doorAreas : List DoorArea)
    (b : Bounds) (maxT : ℕ) (rpg rgs x : ℚ) (idx : ℕ) :
    ∀ t ∈ (tablesInColumnsColumn cfg doorAreas b maxT rpg rgs x idx).1,
      t.x = x ∧
      isObjectInAnyDoorArea ⟨x, t.y, cfg.width, cfg.height, 0⟩ doorAreas = false := by
  intro t ht
  unfold tablesInColumnsColumn at ht
  have := foldl_mem_preserve _ (fun st : List TablePos × ℕ => st.1)
    (fun t => t.x = x ∧
      isObjectInAnyDoorArea ⟨x, t.y, cfg.width, cfg.height, 0⟩ doorAreas = false)
    ?_ (List.range maxT) ([], idx) t ht
  · rcases this with h | h
    · simp at h
    · exact h
  · intro st row u hu
    dsimp only at hu
    split_ifs at hu with h1 h2
    · exact Or.inl hu
    · rcases List.mem_append.mp hu with h | h
      · exact Or.inl h
      · rcases List.mem_singleton.mp h with rfl
        exact Or.inr ⟨rfl, eq_false_of_ne_true h2⟩
    · exact Or.inl hu

/-- Column-limited chair pass: placed chairs sit at the column's X and
passed the per-unit door check. -/
theorem chairsInColumnsColumn_mem (cfg : TableConfig) (chair : SingleChairConfig)
    (doorAreas : List DoorArea) (b : Bounds) (maxRows : ℕ) (maxGuests x guests : ℚ) (idx : ℕ) :
    ∀ c ∈ (chairsInColumnsColumn cfg chair doorAreas b maxRows maxGuests x guests idx).1,
      c.x = x ∧
      isObjectInAnyDoorArea
        ⟨x, c.y, chair.width, chair.height, jsOrQ chair.rotation 0⟩ doorAreas = false := by
  intro c hc
  unfold chairsInColumnsColumn at hc
  have := foldl_mem_preserve _ (fun st : List ChairPos × ℚ × ℕ => st.1)
    (fun c => c.x = x ∧
      isObjectInAnyDoorArea
        ⟨x, c.y, chair.width, chair.height, jsOrQ chair.rotation 0⟩ doorAreas = false)
    ?_ (List.range maxRows) ([], guests, idx) c hc
  · rcases this with h | h
    · simp at h
    · exact h
  · intro st row u hu
    dsimp only at hu
    split_ifs at hu with h1 h2 h3
    · exact Or.inl hu
    · rcases List.mem_append.mp hu with h | h
      · exact Or.inl h
      · rcases List.mem_singleton.mp h with rfl
        exact Or.inr ⟨rfl, eq_false_of_ne_true h3⟩
    · exact Or.inl hu
    · exact Or.inl hu

/-- Every table returned by the `placeTablesOnly` loop sits in a column that
passed the door-span test and passed its own per-unit door check. -/
theorem placeTablesOnlyGo_mem (target : ℚ) (cfg : TableConfig)
    (doorAreas : List DoorArea) (b : Bounds) (maxT : ℕ) :
    ∀ (fuel : ℕ) (x guests : ℚ) (idx : ℕ),
      ∀ t ∈ (placeTablesOnlyGo target cfg doorAreas b maxT fuel x guests idx).1,
        columnOverlapsDoor t.x cfg.width doorAreas = false ∧
        isObjectInAnyDoorArea ⟨t.x, t.y, cfg.width, cfg.height, 0⟩ doorAreas = false := by
  intro fuel
  induction fuel with
  | zero => intro x g i t ht; simp [placeTablesOnlyGo] at ht
  | succ f ih =>
    intro x g i t ht
    simp only [placeTablesOnlyGo] at ht
    split_ifs at ht with hguard hdoor
    · exact ih _ _ _ t ht
    · simp only at ht
      rcases List.mem_append.mp ht with h | h
      · obtain ⟨hx, hfree⟩ := tablesOnlyColumn_mem target cfg doorAreas b maxT x g i t h
        subst hx
        exact ⟨eq_false_of_ne_true hdoor, hfree⟩
      · exact ih _ _ _ t h
    · simp at ht

/-- Every chair returned by the `placeChairsOnly` loop sits in a column that
passed the door-span test and passed its own per-unit door check. -/
theorem placeChairsOnlyGo_mem (target : ℚ) (cfg : TableConfig) (chair : SingleChairConfig)
    (doorAreas : List DoorArea) (b : Bounds) (maxRows : ℕ) :
    ∀ (fuel : ℕ) (x guests : ℚ) (idx : ℕ),
      ∀ c ∈ (placeChairsOnlyGo target cfg chair doorAreas b maxRows fuel x guests idx).1,
        columnOverlapsDoor c.x chair.width doorAreas = false ∧
        isObjectInAnyDoorArea
          ⟨c.x, c.y, chair.width, chair.height, jsOrQ chair.rotation 0⟩ doorAreas = false := by
  intro fuel
  induction fuel with
  | zero => intro x g i c hc; simp [placeChairsOnlyGo] at hc
  | succ f ih =>
    intro x g i c hc
    simp only [placeChairsOnlyGo] at hc
    split_ifs at hc with hguard hdoor
    · exact ih _ _ _ c hc
    · simp only at hc
      rcases List.mem_append.mp hc with h | h
      · obtain ⟨hx, hfree⟩ :=
          chairsOnlyColumn_mem target cfg chair doorAreas b maxRows x g i c h
        subst hx
        exact ⟨eq_false_of_ne_true hdoor, hfree⟩
      · exact ih _ _ _ c h
    · simp at hc

/-- Every table returned by the `placeTablesInColumns` loop sits in a column
that passed the door-span test and passed its own per-unit door check. -/
theorem placeTablesInColumnsGo_mem (numColumns : ℤ) (cfg : TableConfig)
    (doorAreas : List DoorArea) (b : Bounds) (maxT : ℕ) (rpg rgs : ℚ) :
    ∀ (fuel : ℕ) (x : ℚ) (cols : ℤ) (idx : ℕ),
      ∀ t ∈ placeTablesInColumnsGo numColumns cfg doorAreas b maxT rpg rgs fuel x cols idx,
        columnOverlapsDoor t.x cfg.width doorAreas = false ∧
        isObjectInAnyDoorArea ⟨t.x, t.y, cfg.width, cfg.height, 0⟩ doorAreas = false := by
  intro fuel
  induction fuel with
  | zero => intro x cols i t ht; simp [placeTablesInColumnsGo] at ht
  | succ f ih =>
    intro x cols i t ht
    simp only [placeTablesInColumnsGo] at ht
    split_ifs at ht with hguard hdoor
    · exact ih _ _ _ t ht
    · rcases List.mem_append.mp ht with h | h
      · obtain ⟨hx, hfree⟩ :=
          tablesInColumnsColumn_mem cfg doorAreas b maxT rpg rgs x i t h
        subst hx
        exact ⟨eq_false_of_ne_true hdoor, hfree⟩
      · exact ih _ _ _ t h
    · simp at ht

/-- Every chair returned by the `placeChairsInColumns` loop sits in a column
that passed the door-span test and passed its own per-unit door check. -/
theorem placeChairsInColumnsGo_mem (numColumns : ℤ) (maxGuests : ℚ) (cfg : TableConfig)
    (chair : SingleChairConfig) (doorAreas : List DoorArea) (b : Bounds) (maxRows : ℕ) :
    ∀ (fuel : ℕ) (x guests : ℚ) (cols : ℤ) (idx : ℕ),
      ∀ c ∈ (placeChairsInColumnsGo numColumns maxGuests cfg chair doorAreas b maxRows
          fuel x guests cols idx).1,
        columnOverlapsDoor c.x chair.width doorAreas = false ∧
        isObjectInAnyDoorArea
          ⟨c.x, c.y, chair.width, chair.height, jsOrQ chair.rotation 0⟩ doorAreas = false := by
  intro fuel
  induction fuel with
  | zero => intro x g cols i c hc; simp [placeChairsInColumnsGo] at hc
  | succ f ih =>
    intro x g cols i c hc
    simp only [placeChairsInColumnsGo] at hc
    split_ifs at hc with hguard hdoor
    · exact ih _ _ _ _ c hc
    · simp only at hc
      rcases List.mem_append.mp hc with h | h
      · obtain ⟨hx, hfree⟩ :=
          chairsInColumnsColumn_mem cfg chair doorAreas b maxRows maxGuests x g i c h
        subst hx
        exact ⟨eq_false_of_ne_true hdoor, hfree⟩
      · exact ih _ _ _ _ c h
    · simp at hc

/-- One smart-mix iteration preserves the door-safety of the recorded best
solution: every table/chair it may record comes from a column pass and
passed both door checks. -/
theorem smartMixStep_mem (fuel : ℕ) (target : ℚ) (cfg : TableConfig)
    (doorAreas : List DoorArea) (b : Bounds) (maxT : ℤ) (rpg rgs : ℚ) (tc : ℕ)
    (best : BestSolution)
    (hbt : ∀ t ∈ best.tables,
      columnOverlapsDoor t.x cfg.width doorAreas = false ∧
      isObjectInAnyDoorArea ⟨t.x, t.y, cfg.width, cfg.height, 0⟩ doorAreas = false)
    (hbc : ∀ c ∈ best.chairs, ∀ chair, cfg.singleChair = some chair →
      columnOverlapsDoor c.x chair.width doorAreas = false ∧
      isObjectInAnyDoorArea
        ⟨c.x, c.y, chair.width, chair.height, jsOrQ chair.rotation 0⟩ doorAreas = false) :
    (∀ t ∈ (smartMixStep fuel target cfg doorAreas b maxT rpg rgs tc best).1.tables,
      columnOverlapsDoor t.x cfg.width doorAreas = false ∧
      isObjectInAnyDoorArea ⟨t.x, t.y, cfg.width, cfg.height, 0⟩ doorAreas = false) ∧
    (∀ c ∈ (smartMixStep fuel target cfg doorAreas b maxT rpg rgs tc best).1.chairs,
      ∀ chair, cfg.singleChair = some chair →
      columnOverlapsDoor c.x chair.width doorAreas = false ∧
      isObjectInAnyDoorArea
        ⟨c.x, c.y, chair.width, chair.height, jsOrQ chair.rotation 0⟩ doorAreas = false) := by
  have htg : ∀ t ∈ (placeTablesInColumns fuel (tc : ℤ) cfg doorAreas b maxT rpg rgs).1,
      columnOverlapsDoor t.x cfg.width doorAreas = false ∧
      isObjectInAnyDoorArea ⟨t.x, t.y, cfg.width, cfg.height, 0⟩ doorAreas = false := by
    intro t ht
    exact placeTablesInColumnsGo_mem (tc : ℤ) cfg doorAreas b maxT.toNat rpg rgs fuel
      b.minX 0 0 t ht
  have hcg : ∀ (nc : ℤ) (mg mcpc sx : ℚ),
      ∀ c ∈ (placeChairsInColumns fuel nc mg cfg doorAreas b mcpc sx).1,
      ∀ chair1, cfg.singleChair = some chair1 →
      columnOverlapsDoor c.x chair1.width doorAreas = false ∧
      isObjectInAnyDoorArea
        ⟨c.x, c.y, chair1.width, chair1.height, jsOrQ chair1.rotation 0⟩ doorAreas = false := by
    intro nc mg mcpc sx c hc chair1 hsc1
    unfold placeChairsInColumns at hc
    rw [hsc1] at hc
    exact placeChairsInColumnsGo_mem nc mg cfg chair1 doorAreas b
      (⌈mcpc⌉ : ℤ).toNat fuel sx 0 0 0 c hc
  unfold smartMixStep
  rcases hsc : cfg.singleChair with _ | chair <;> simp only [hsc] <;> split_ifs <;>
    refine ⟨?_, ?_⟩ <;>
    first
      | exact fun t ht => htg t ht
      | exact hbt
      | exact fun c hc chair1 heq => hcg _ _ _ _ c hc chair1 (hsc.trans heq)
      | exact fun c hc chair1 heq => hbc c hc chair1 (hsc.trans heq)
      | exact fun c hc chair1 hF => hF.elim
      | (intro c hc; simp at hc)

/-- The whole smart-mix candidate loop preserves best-solution
door-safety. -/
theorem smartMixLoop_mem (fuel : ℕ) (target : ℚ) (cfg : TableConfig)
    (doorAreas : List DoorArea) (b : Bounds) (maxT : ℤ) (rpg rgs : ℚ) :
    ∀ (tc : ℕ) (best : BestSolution),
      (∀ t ∈ best.tables,
        columnOverlapsDoor t.x cfg.width doorAreas = false ∧
        isObjectInAnyDoorArea ⟨t.x, t.y, cfg.width, cfg.height, 0⟩ doorAreas = false) →
      (∀ c ∈ best.chairs, ∀ chair, cfg.singleChair = some chair →
        columnOverlapsDoor c.x chair.width doorAreas = false ∧
        isObjectInAnyDoorArea
          ⟨c.x, c.y, chair.width, chair.height, jsOrQ chair.rotation 0⟩ doorAreas = false) →
      (∀ t ∈ (smartMixLoop fuel target cfg doorAreas b maxT rpg rgs tc best).tables,
        columnOverlapsDoor t.x cfg.width doorAreas = false ∧
        isObjectInAnyDoorArea ⟨t.x, t.y, cfg.width, cfg.height, 0⟩ doorAreas = false) ∧
      (∀ c ∈ (smartMixLoop fuel target cfg doorAreas b maxT rpg rgs tc best).chairs,
        ∀ chair, cfg.singleChair = some chair →
        columnOverlapsDoor c.x chair.width doorAreas = false ∧
        isObjectInAnyDoorArea
          ⟨c.x, c.y, chair.width, chair.height, jsOrQ chair.rotation 0⟩ doorAreas = false) := by
  intro tc
  induction tc with
  | zero =>
    intro best hbt hbc
    exact smartMixStep_mem fuel target cfg doorAreas b maxT rpg rgs 0 best hbt hbc
  | succ t ih =>
    intro best hbt hbc
    have hstep := smartMixStep_mem fuel target cfg doorAreas b maxT rpg rgs (t + 1) best hbt hbc
    simp only [smartMixLoop]
    by_cases hbrk : (smartMixStep fuel target cfg doorAreas b maxT rpg rgs (t + 1) best).2 = true
    · simp only [hbrk, if_true]
      exact hstep
    · simp only [Bool.not_eq_true] at hbrk
      simp only [hbrk, Bool.false_eq_true, if_false]
      exact ih _ hstep.1 hstep.2

/-- Every table and chair returned by `placeSmartMix` passed the column
door-span test and the per-unit door check. -/
theorem placeSmartMix_mem (fuel : ℕ) (target : ℚ) (cfg : TableConfig)
    (doorAreas : List DoorArea) :
    (∀ t ∈ (placeSmartMix fuel target cfg doorAreas).tables,
      columnOverlapsDoor t.x cfg.width doorAreas = false ∧
      isObjectInAnyDoorArea ⟨t.x, t.y, cfg.width, cfg.height, 0⟩ doorAreas = false) ∧
    (∀ c ∈ (placeSmartMix fuel target cfg doorAreas).chairs,
      ∀ chair, cfg.singleChair = some chair →
      columnOverlapsDoor c.x chair.width doorAreas = false ∧
      isObjectInAnyDoorArea
        ⟨c.x, c.y, chair.width, chair.height, jsOrQ chair.rotation 0⟩ doorAreas = false) := by
  unfold placeSmartMix
  have hinit : ∀ t ∈ ((⟨[], [], 0, none⟩ : BestSolution)).tables,
      columnOverlapsDoor t.x cfg.width doorAreas = false ∧
      isObjectInAnyDoorArea ⟨t.x, t.y, cfg.width, cfg.height, 0⟩ doorAreas = false := by
    intro t ht; simp at ht
  have hinitc : ∀ c ∈ ((⟨[], [], 0, none⟩ : BestSolution)).chairs,
      ∀ chair, cfg.singleChair = some chair →
      columnOverlapsDoor c.x chair.width doorAreas = false ∧
      isObjectInAnyDoorArea
        ⟨c.x, c.y, chair.width, chair.height, jsOrQ chair.rotation 0⟩ doorAreas = false := by
    intro c hc; simp at hc
  have hfb : ∀ (nc : ℤ) (maxT : ℤ) (rpg rgs : ℚ),
      ∀ t ∈ (placeTablesInColumns fuel nc cfg doorAreas (tableBounds cfg) maxT rpg rgs).1,
      columnOverlapsDoor t.x cfg.width doorAreas = false ∧
      isObjectInAnyDoorArea ⟨t.x, t.y, cfg.width, cfg.height, 0⟩ doorAreas = false := by
    intro nc maxT rpg rgs t ht
    exact placeTablesInColumnsGo_mem nc cfg doorAreas (tableBounds cfg) maxT.toNat rpg rgs
      fuel (tableBounds cfg).minX 0 0 t ht
  dsimp only
  split_ifs with h1 h2 h3
  · constructor
    · intro t ht
      exact hfb _ _ _ _ t ht
    · intro c hc
      simp at hc
  · exact ⟨hinit, hinitc⟩
  · constructor
    · intro t ht
      exact hfb _ _ _ _ t ht
    · intro c hc
      simp at hc
  · exact smartMixLoop_mem fuel target cfg doorAreas (tableBounds cfg) _ _ _ _ _
      hinit hinitc

/-- C3 (counterexample): the claim's "every column is either entirely
present or entirely skipped" fails.  Over the single-column area
`[0,4] × [0,10]` with `doorLeftExample` (raw span `[-5,-1]`, so the column
at `x = 0` passes the span test), the run places the row at `y = 5` but
skips the in-area row at `y = 0`, because the per-unit check treats the
stored corner as the box centre: the unit's test box `[-2,2] × [-2,2]`
meets the door's box.  The placed column is thus only partially filled. -/
theorem placeTablesOnly_partial_column_cex :
    (placeTablesOnly 2 50 cfgNarrowExample [doorLeftExample]).tables = [⟨0, 5, 0⟩] ∧
    tableRowY cfgNarrowExample (tableBounds cfgNarrowExample) 0 = 0 ∧
    (0 : ℚ) + cfgNarrowExample.height ≤ (tableBounds cfgNarrowExample).maxY ∧
    ¬ ∃ t ∈ (placeTablesOnly 2 50 cfgNarrowExample [doorLeftExample]).tables,
        t.x = 0 ∧ t.y = 0 := by
  have hrun : (placeTablesOnly 2 50 cfgNarrowExample [doorLeftExample]).tables =
      [⟨0, 5, 0⟩] := by
    norm_num [placeTablesOnly, placeTablesOnlyGo, tablesOnlyColumn, tableRowY, tableBounds,
      columnOverlapsDoor, maxDoorEndX, isObjectInAnyDoorArea, isObjectInDoorArea,
      doorRawMinX, doorRawMaxX, jsOrQ, cfgNarrowExample, doorLeftExample]
    norm_num [show Int.toNat 2 = 2 from rfl, List.range_succ]
  refine ⟨hrun, by norm_num [tableRowY, tableBounds, cfgNarrowExample, jsOrQ], by
    norm_num [tableBounds, cfgNarrowExample], ?_⟩
  rw [hrun]
  rintro ⟨t, ht, hx, hy⟩
  rw [List.mem_singleton] at ht
  subst ht
  norm_num at hy

/-- A column whose span test cleared a door has its X outside the door's
open raw span (given a nonnegative unit width). -/
theorem not_inside_span_of_column_clear (x w : ℚ) (doorAreas : List DoorArea)
    (hw : 0 ≤ w) (h : columnOverlapsDoor x w doorAreas = false) :
    ∀ d ∈ doorAreas, ¬(doorRawMinX d < x ∧ x < doorRawMaxX d) := by
  intro d hd hcontra
  unfold columnOverlapsDoor at h
  rw [List.any_eq_false] at h
  have hnot := h d hd
  simp only [Bool.and_eq_true, decide_eq_true_eq, not_and] at hnot
  exact absurd (lt_of_lt_of_le hcontra.1 (le_add_of_nonneg_right hw))
    (hnot hcontra.2)

/-- C3 (amended): in `placeTablesOnly` and `placeTablesInColumns`, a column
overlapping a door's raw horizontal span is never filled — the cursor jumps
past the overlapping doors first — so no returned table's x-origin lies
strictly inside any door's raw horizontal span.  (The claim's further
"every column is entirely present or entirely skipped" is false: the
per-unit clearance-expanded centre-based check can skip individual rows of
a cleared column, see the counterexample.) -/
theorem placed_tables_x_not_inside_door_span (fuel : ℕ) (target : ℚ)
    (cfg : TableConfig) (doorAreas : List DoorArea) (hw : 0 ≤ cfg.width) :
    (∀ t ∈ (placeTablesOnly fuel target cfg doorAreas).tables, ∀ d ∈ doorAreas,
      ¬(doorRawMinX d < t.x ∧ t.x < doorRawMaxX d)) ∧
    (∀ (numColumns maxT : ℤ) (b : Bounds) (rpg rgs : ℚ),
      ∀ t ∈ (placeTablesInColumns fuel numColumns cfg doorAreas b maxT rpg rgs).1,
      ∀ d ∈ doorAreas, ¬(doorRawMinX d < t.x ∧ t.x < doorRawMaxX d)) := by
  constructor
  · intro t ht
    have hcol := (placeTablesOnlyGo_mem target cfg doorAreas (tableBounds cfg) _
      fuel (tableBounds cfg).minX 0 0 t ht).1
    exact not_inside_span_of_column_clear t.x cfg.width doorAreas hw hcol
  · intro numColumns maxT b rpg rgs t ht
    have hcol := (placeTablesInColumnsGo_mem numColumns cfg doorAreas b maxT.toNat rpg rgs
      fuel b.minX 0 0 t ht).1
    exact not_inside_span_of_column_clear t.x cfg.width doorAreas hw hcol

/-- Witness for the amended C3: the table placed at `(0,5)` in the
counterexample run has its x-origin outside `doorLeftExample`'s raw span. -/
theorem placed_tables_x_not_inside_door_span_witness :
    (0 : ℚ) ≤ cfgNarrowExample.width ∧
    ¬(doorRawMinX doorLeftExample < (0 : ℚ) ∧ (0 : ℚ) < doorRawMaxX doorLeftExample) := by
  have hrun : (placeTablesOnly 2 50 cfgNarrowExample [doorLeftExample]).tables =
      [⟨0, 5, 0⟩] := by
    norm_num [placeTablesOnly, placeTablesOnlyGo, tablesOnlyColumn, tableRowY, tableBounds,
      columnOverlapsDoor, maxDoorEndX, isObjectInAnyDoorArea, isObjectInDoorArea,
      doorRawMinX, doorRawMaxX, jsOrQ, cfgNarrowExample, doorLeftExample]
    norm_num [show Int.toNat 2 = 2 from rfl, List.range_succ]
  have hw : (0 : ℚ) ≤ cfgNarrowExample.width := by norm_num [cfgNarrowExample]
  refine ⟨hw, ?_⟩
  have := (placed_tables_x_not_inside_door_span 2 50 cfgNarrowExample [doorLeftExample] hw).1
    ⟨0, 5, 0⟩ (by rw [hrun]; exact List.mem_singleton.mpr rfl)
    doorLeftExample (List.mem_singleton.mpr rfl)
  exact this

/-- `isObjectInAnyDoorArea` is false exactly when the per-door test fails
for every door. -/
theorem isObjectInAnyDoorArea_eq_false (object : ObjRect) (doorAreas : List DoorArea) :
    isObjectInAnyDoorArea object doorAreas = false ↔
      ∀ d ∈ doorAreas, isObjectInDoorArea object d = false := by
  unfold isObjectInAnyDoorArea
  rw [List.any_eq_false]
  constructor
  · intro h d hd
    exact Bool.not_eq_true _ ▸ eq_false_of_ne_true (h d hd)
  · intro h d hd
    rw [h d hd]
    simp

/-- C4: every table and chair in any returned arrangement — tables-only,
chairs-only or smart-mix — avoids every door area's clearance-expanded
bounding box, where the overlap test is the AABB intersection of the door
box against the rectangle centred at the unit's stored `(x, y)` with
half-extents `width/2` and `height/2` (`isObjectInDoorArea`). -/
theorem placed_units_avoid_door_areas (fuel : ℕ) (target : ℚ) (cfg : TableConfig)
    (doorAreas : List DoorArea) :
    (∀ t ∈ (placeTablesOnly fuel target cfg doorAreas).tables, ∀ d ∈ doorAreas,
      isObjectInDoorArea ⟨t.x, t.y, cfg.width, cfg.height, 0⟩ d = false) ∧
    (∀ c ∈ (placeChairsOnly fuel target cfg doorAreas).chairs, ∀ chair,
      cfg.singleChair = some chair → ∀ d ∈ doorAreas,
      isObjectInDoorArea
        ⟨c.x, c.y, chair.width, chair.height, jsOrQ chair.rotation 0⟩ d = false) ∧
    (∀ t ∈ (placeSmartMix fuel target cfg doorAreas).tables, ∀ d ∈ doorAreas,
      isObjectInDoorArea ⟨t.x, t.y, cfg.width, cfg.height, 0⟩ d = false) ∧
    (∀ c ∈ (placeSmartMix fuel target cfg doorAreas).chairs, ∀ chair,
      cfg.singleChair = some chair → ∀ d ∈ doorAreas,
      isObjectInDoorArea
        ⟨c.x, c.y, chair.width, chair.height, jsOrQ chair.rotation 0⟩ d = false) := by
  refine ⟨?_, ?_, ?_, ?_⟩
  · intro t ht
    have h := (placeTablesOnlyGo_mem target cfg doorAreas (tableBounds cfg) _
      fuel (tableBounds cfg).minX 0 0 t ht).2
    exact (isObjectInAnyDoorArea_eq_false _ _).mp h
  · intro c hc chair hsc
    unfold placeChairsOnly at hc
    rw [hsc] at hc
    have h := (placeChairsOnlyGo_mem target cfg chair doorAreas (tableBounds cfg) _
      fuel (tableBounds cfg).minX 0 0 c hc).2
    exact (isObjectInAnyDoorArea_eq_false _ _).mp h
  · intro t ht
    have h := ((placeSmartMix_mem fuel target cfg doorAreas).1 t ht).2
    exact (isObjectInAnyDoorArea_eq_false _ _).mp h
  · intro c hc chair hsc
    have h := ((placeSmartMix_mem fuel target cfg doorAreas).2 c hc chair hsc).2
    exact (isObjectInAnyDoorArea_eq_false _ _).mp h

/-- Witness for C4: the table the tables-only run places at `(0,0)` in the
area `[0,4] × [0,10]` avoids the far-away door's expanded box. -/
theorem placed_units_avoid_door_areas_witness :
    isObjectInDoorArea
      ⟨(0 : ℚ), (0 : ℚ), cfgNarrowExample.width, cfgNarrowExample.height, 0⟩
      doorFarExample = false := by
  have hrun : (placeTablesOnly 2 8 cfgNarrowExample [doorFarExample]).tables =
      [⟨0, 0, 0⟩] := by
    norm_num [placeTablesOnly, placeTablesOnlyGo, tablesOnlyColumn, tableRowY, tableBounds,
      columnOverlapsDoor, maxDoorEndX, isObjectInAnyDoorArea, isObjectInDoorArea,
      doorRawMinX, doorRawMaxX, jsOrQ, cfgNarrowExample, doorFarExample]
    norm_num [show Int.toNat 2 = 2 from rfl, List.range_succ]
  exact (placed_units_avoid_door_areas 2 8 cfgNarrowExample [doorFarExample]).1
    ⟨0, 0, 0⟩ (by rw [hrun]; exact List.mem_singleton.mpr rfl)
    doorFarExample (List.mem_singleton.mpr rfl)

/-- C5 (counterexample): the part_004 packer performs **no**
point-in-polygon test.  Over the right-trapezoid area (bottom edge from
`(4,0)` to `(10,0)`), the tables-only arrangement returns a table whose own
top-left footprint corner `(0,0)` lies outside the polygon (it fails the
even-odd ray-casting test), because placement only checks the polygon's
bounding box. -/
theorem calculateTableArrangement_polygon_corner_cex :
    (∃ obj ∈ (calculateTableArrangement 2 8 cfgTrapezoid []).objects,
        obj.type = "table" ∧ obj.x = 0 ∧ obj.y = 0) ∧
    isPointInPolygon ⟨0, 0⟩ (convertTableAreaToArray trapezoidPoints) = false := by
  constructor
  · have hrun : (calculateTableArrangement 2 8 cfgTrapezoid []).objects =
        [⟨"table", 0, 0, 4, 4, 0, 0⟩, ⟨"table", 0, 5, 4, 4, 1, 0⟩] := by
      norm_num [calculateTableArrangement, placeTablesOnly, placeTablesOnlyGo,
        tablesOnlyColumn, tableRowY, tableBounds, columnOverlapsDoor, maxDoorEndX,
        isObjectInAnyDoorArea, isObjectInDoorArea, doorRawMinX, doorRawMaxX, jsOrQ,
        cfgTrapezoid, trapezoidPoints, getPolygonBounds, convertTableAreaToArray,
        show ¬(("tables-only" : String) = "") from by decide]
      norm_num [show Int.toNat 2 = 2 from rfl, List.range_succ]
    rw [hrun]
    exact ⟨⟨"table", 0, 0, 4, 4, 0, 0⟩, by simp, rfl, rfl, rfl⟩
  · norm_num [isPointInPolygon, convertTableAreaToArray, trapezoidPoints, List.getD]

/-- C5 (amended): the polygon-aware placers of the venue-config module do
enforce the corner test — every position returned by
`calculateTablePositionsInPolygon`, and every chair returned by
`calculateSingleChairPositions` over a 4-point polygon area, has all four
footprint corners passing the even-odd ray-casting test; a unit straddling
the boundary is rejected entirely, never clipped.  (The part_004 packer
checks only the bounding box, see the counterexample.) -/
theorem polygon_placers_all_corners_inside (cfg : TableConfig) (n : ℚ)
    (np : TableAreaPoints) (hnp : cfg.namedPoints = some np) :
    (∀ p ∈ calculateTablePositionsInPolygon cfg n,
      ∀ corner ∈ tableCorners p.x p.y cfg.width cfg.height,
        isPointInPolygon corner (convertTableAreaToArray np) = true) ∧
    (∀ chair, cfg.singleChair = some chair →
      ∀ c ∈ calculateSingleChairPositions cfg n,
      ∀ corner ∈ tableCorners c.x c.y chair.width chair.height,
        isPointInPolygon corner (convertTableAreaToArray np) = true) := by
  constructor
  · intro p hp
    unfold calculateTablePositionsInPolygon at hp
    rw [hnp] at hp
    have := foldl_mem_preserve _ (fun st : List TablePos × ℕ => st.1)
      (fun p => ∀ corner ∈ tableCorners p.x p.y cfg.width cfg.height,
        isPointInPolygon corner (convertTableAreaToArray np) = true)
      ?_ _ ([], 0) p hp
    · rcases this with h | h
      · simp at h
      · exact h
    · intro st col
      apply foldl_mem_preserve
      intro st2 row u hu
      dsimp only at hu
      split_ifs at hu with h1 h2 h3
      · rcases List.mem_append.mp hu with h | h
        · exact Or.inl h
        · rcases List.mem_singleton.mp h with rfl
          exact Or.inr (fun corner hc => List.all_eq_true.mp h3 corner hc)
      · exact Or.inl hu
      · exact Or.inl hu
      · exact Or.inl hu
  · intro chair hsc c hc
    unfold calculateSingleChairPositions at hc
    rw [hsc] at hc
    simp only [hnp] at hc
    have := foldl_mem_preserve _ (fun st : List ChairPos × ℕ => st.1)
      (fun c => ∀ corner ∈ tableCorners c.x c.y chair.width chair.height,
        isPointInPolygon corner (convertTableAreaToArray np) = true)
      ?_ _ ([], 0) c hc
    · rcases this with h | h
      · simp at h
      · exact h
    · intro st col
      apply foldl_mem_preserve
      intro st2 row u hu
      try dsimp only at hu
      split_ifs at hu with h1 h2
      · rcases List.mem_append.mp hu with h | h
        · exact Or.inl h
        · rcases List.mem_singleton.mp h with rfl
          exact Or.inr (fun corner hcor => List.all_eq_true.mp h2 corner hcor)
      · exact Or.inl hu
      · exact Or.inl hu

/-- Witness for the amended C5: the first in-polygon placement over the
trapezoid, `(5,0)`, has its top-left corner passing the ray-casting test. -/
theorem polygon_placers_all_corners_inside_witness :
    cfgTrapezoid.namedPoints = some trapezoidPoints ∧
    isPointInPolygon ⟨5, 0⟩ (convertTableAreaToArray trapezoidPoints) = true := by
  have hrun : calculateTablePositionsInPolygon cfgTrapezoid 8 =
      [⟨5, 0, 0⟩, ⟨5, 5, 1⟩] := by
    norm_num [calculateTablePositionsInPolygon, cfgTrapezoid, trapezoidPoints,
      getPolygonBounds, convertTableAreaToArray, isPointInPolygon, tableCorners,
      jsOrQ, List.getD]
    norm_num [show Int.toNat 2 = 2 from rfl, List.range_succ]
  refine ⟨rfl, ?_⟩
  have := (polygon_placers_all_corners_inside cfgTrapezoid 8 trapezoidPoints rfl).1
    ⟨5, 0, 0⟩ (by rw [hrun]; simp)
    ⟨5, 0⟩ (by simp [tableCorners, cfgTrapezoid])
  exact this

/-- Fold steps that preserve a state predicate preserve it across the whole
fold. -/
theorem foldl_state_preserve {α β : Type} (f : α → β → α) (P : α → Prop)
    (hf : ∀ st b, P st → P (f st b)) :
    ∀ (l : List β) (st : α), P st → P (l.foldl f st) := by
  intro l
  induction l with
  | nil => intro st h; exact h
  | cons b bs ih => intro st h; rw [List.foldl_cons]; exact ih _ (hf st b h)

/-- Over an integer-valued difference, a strict bound leaves room for one
whole unit. -/
theorem add_one_le_of_lt_of_int_diff {g m : ℚ} (hz : ∃ z : ℤ, m - g = z)
    (h : g < m) : g + 1 ≤ m := by
  obtain ⟨z, hzeq⟩ := hz
  have h0 : (0 : ℚ) < (z : ℚ) := by rw [← hzeq]; linarith
  have h1 : (1 : ℤ) ≤ z := by exact_mod_cast h0
  have h2 : (1 : ℚ) ≤ (z : ℚ) := by exact_mod_cast h1
  have := hzeq
  linarith

/-- A chair column pass never pushes the running guest count past an
integer-distance cap. -/
theorem chairsInColumnsColumn_guests_le (cfg : TableConfig) (chair : SingleChairConfig)
    (doorAreas : List DoorArea) (b : Bounds) (maxRows : ℕ) (maxGuests x : ℚ)
    (guests : ℚ) (idx : ℕ) (hle : guests ≤ maxGuests)
    (hz : ∃ z : ℤ, maxGuests - guests = z) :
    (chairsInColumnsColumn cfg chair doorAreas b maxRows maxGuests x guests idx).2.1 ≤
      maxGuests ∧
    (∃ z : ℤ, maxGuests -
      (chairsInColumnsColumn cfg chair doorAreas b maxRows maxGuests x guests idx).2.1 = z) := by
  unfold chairsInColumnsColumn
  refine foldl_state_preserve _
    (fun st : List ChairPos × ℚ × ℕ =>
      st.2.1 ≤ maxGuests ∧ ∃ z : ℤ, maxGuests - st.2.1 = z)
    ?_ (List.range maxRows) ([], guests, idx) ⟨hle, hz⟩
  rintro st row ⟨h1, h2⟩
  dsimp only
  split_ifs with hguard hb hdoor
  · exact ⟨h1, h2⟩
  · refine ⟨add_one_le_of_lt_of_int_diff h2 hguard, ?_⟩
    obtain ⟨z, hzeq⟩ := h2
    exact ⟨z - 1, by push_cast; linarith⟩
  · exact ⟨h1, h2⟩
  · exact ⟨h1, h2⟩

/-- The chair-columns loop never exceeds an integer-distance guest cap. -/
theorem placeChairsInColumnsGo_guests_le (numColumns : ℤ) (maxGuests : ℚ)
    (cfg : TableConfig) (chair : SingleChairConfig) (doorAreas : List DoorArea)
    (b : Bounds) (maxRows : ℕ) :
    ∀ (fuel : ℕ) (x guests : ℚ) (cols : ℤ) (idx : ℕ),
      guests ≤ maxGuests → (∃ z : ℤ, maxGuests - guests = z) →
      (placeChairsInColumnsGo numColumns maxGuests cfg chair doorAreas b maxRows
        fuel x guests cols idx).2 ≤ maxGuests := by
  intro fuel
  induction fuel with
  | zero => intro x g cols i hle hz; simpa [placeChairsInColumnsGo] using hle
  | succ f ih =>
    intro x g cols i hle hz
    simp only [placeChairsInColumnsGo]
    split_ifs with hguard hdoor
    · exact ih _ _ _ _ hle hz
    · have hcol := chairsInColumnsColumn_guests_le cfg chair doorAreas b maxRows
        maxGuests x g i hle hz
      exact ih _ _ _ _ hcol.1 hcol.2
    · exact hle

/-- `placeChairsInColumns` seats at most `maxGuests` guests when the cap is
a nonnegative integer. -/
theorem placeChairsInColumns_guests_le (fuel : ℕ) (numColumns : ℤ) (maxGuests : ℚ)
    (cfg : TableConfig) (doorAreas : List DoorArea) (b : Bounds)
    (maxChairsPerColumn startX : ℚ) (h0 : 0 ≤ maxGuests) (hz : ∃ z : ℤ, maxGuests = z) :
    (placeChairsInColumns fuel numColumns maxGuests cfg doorAreas b
      maxChairsPerColumn startX).2 ≤ maxGuests := by
  unfold placeChairsInColumns
  rcases hsc : cfg.singleChair with _ | chair
  · exact h0
  · obtain ⟨z, hzeq⟩ := hz
    exact placeChairsInColumnsGo_guests_le numColumns maxGuests cfg chair doorAreas b _
      fuel startX 0 0 0 h0 ⟨z, by rw [hzeq]; ring⟩

/-- The tables pass reports an integer guest count whenever `chairsPerTable`
is an integer. -/
theorem placeTablesInColumns_guests_int (fuel : ℕ) (numColumns : ℤ)
    (cfg : TableConfig) (doorAreas : List DoorArea) (b : Bounds)
    (maxTablesPerColumn : ℤ) (rowsPerGroup rowGroupSpacing : ℚ)
    (hC : ∃ z : ℤ, cfg.chairsPerTable = z) :
    ∃ z : ℤ, (placeTablesInColumns fuel numColumns cfg doorAreas b
      maxTablesPerColumn rowsPerGroup rowGroupSpacing).2 = z := by
  obtain ⟨zc, hzc⟩ := hC
  refine ⟨((placeTablesInColumnsGo numColumns cfg doorAreas b maxTablesPerColumn.toNat
    rowsPerGroup rowGroupSpacing fuel b.minX 0 0).length : ℤ) * zc, ?_⟩
  unfold placeTablesInColumns
  dsimp only
  rw [hzc]
  push_cast
  ring

/-- How a best-solution update step concludes: either nothing changed, or the
new solution records its own gap and was accepted on a strictly better gap. -/
theorem smartMix_branch_conclusion (target : ℚ) (best newv : BestSolution)
    (hinv : best.gap = none ∨ best.gap = some |best.actualGuests - target|)
    (hshape : newv = best ∨
      (newv.gap = some |newv.actualGuests - target| ∧
        (ltOptQ |newv.actualGuests - target| best.gap = true ∨
          (best.actualGuests < newv.actualGuests ∧ newv.actualGuests ≤ target)))) :
    (newv.gap = none ∨ newv.gap = some |newv.actualGuests - target|) ∧
    (newv ≠ best → ∃ g, newv.gap = some g ∧ ∀ g0, best.gap = some g0 → g < g0) := by
  rcases hshape with heq | ⟨hgap, hcond⟩
  · subst heq
    exact ⟨hinv, fun hne => absurd rfl hne⟩
  · refine ⟨Or.inr hgap, ?_⟩
    intro _
    refine ⟨|newv.actualGuests - target|, hgap, ?_⟩
    intro g0 hg0
    have hg0' : g0 = |best.actualGuests - target| := by
      rcases hinv with h | h
      · rw [h] at hg0; cases hg0
      · rw [h] at hg0; exact (Option.some.inj hg0).symm
    rcases hcond with h | ⟨hlt, hle⟩
    · rw [hg0] at h
      simpa [ltOptQ] using h
    · have hat : best.actualGuests < target := lt_of_lt_of_le hlt hle
      rw [hg0', abs_of_nonpos (by linarith : newv.actualGuests - target ≤ 0),
        abs_of_nonpos (by linarith : best.actualGuests - target ≤ 0)]
      linarith

/-- Claim C1: in auto ("smart mix") mode the recorded best solution starts
with an empty gap, every candidate step keeps the recorded gap equal to
`|actualGuests - target|`, and a step that changes the best solution always
records a gap strictly smaller than the previously recorded one — never an
equal gap — whenever the target guest count and `chairsPerTable` are
integers; since table-column counts are tried from the maximum downward,
ties keep the candidate with more table columns. -/
theorem placeSmartMix_strict_gap_update (fuel : ℕ) (target : ℚ)
    (cfg : TableConfig) (doorAreas : List DoorArea) (b : Bounds)
    (maxTablesPerColumn : ℤ) (rowsPerGroup rowGroupSpacing : ℚ)
    (hT : ∃ z : ℤ, target = z) (hC : ∃ z : ℤ, cfg.chairsPerTable = z) :
    ((⟨[], [], 0, none⟩ : BestSolution).gap = none) ∧
    ∀ (tc : ℕ) (best : BestSolution),
      best.gap = none ∨ best.gap = some |best.actualGuests - target| →
      (((smartMixStep fuel target cfg doorAreas b maxTablesPerColumn rowsPerGroup
          rowGroupSpacing tc best).1.gap = none ∨
        (smartMixStep fuel target cfg doorAreas b maxTablesPerColumn rowsPerGroup
          rowGroupSpacing tc best).1.gap =
          some |(smartMixStep fuel target cfg doorAreas b maxTablesPerColumn
            rowsPerGroup rowGroupSpacing tc best).1.actualGuests - target|) ∧
       ((smartMixStep fuel target cfg doorAreas b maxTablesPerColumn rowsPerGroup
          rowGroupSpacing tc best).1 ≠ best →
        ∃ g, (smartMixStep fuel target cfg doorAreas b maxTablesPerColumn
          rowsPerGroup rowGroupSpacing tc best).1.gap = some g ∧
          ∀ g0, best.gap = some g0 → g < g0)) := by
  refine ⟨rfl, ?_⟩
  intro tc best hinv
  have htgint := placeTablesInColumns_guests_int fuel (tc : ℤ) cfg doorAreas b
    maxTablesPerColumn rowsPerGroup rowGroupSpacing hC
  refine smartMix_branch_conclusion target best _ hinv ?_
  unfold smartMixStep
  dsimp only
  set tg := placeTablesInColumns fuel (tc : ℤ) cfg doorAreas b maxTablesPerColumn
    rowsPerGroup rowGroupSpacing with htg
  by_cases hrem : target - tg.2 ≤ 0
  · rw [if_pos hrem]
    by_cases hlt : ltOptQ |tg.2 - target| best.gap = true
    · rw [if_pos hlt]
      exact Or.inr ⟨rfl, Or.inl hlt⟩
    · rw [if_neg hlt]
      exact Or.inl rfl
  · rw [if_neg hrem]
    have hrem' : tg.2 < target := by push_neg at hrem; linarith
    have hzrem : ∃ z : ℤ, target - tg.2 = z := by
      obtain ⟨zt, hzt⟩ := hT
      obtain ⟨ztg, hztg⟩ := htgint
      exact ⟨zt - ztg, by rw [hzt, hztg]; push_cast; ring⟩
    rcases hsc : cfg.singleChair with _ | chair
    · simp only [hsc]
      exact Or.inl (by trivial)
    · simp only [hsc]
      try dsimp only
      split_ifs with h1 h2 h3 h4 h5 h6 h7
      · rw [Bool.or_eq_true] at h3
        rcases h3 with hl | hr
        · exact Or.inr ⟨rfl, Or.inl hl⟩
        · exact Or.inr ⟨rfl, Or.inr ⟨of_decide_eq_true hr,
            le_trans (add_le_add_left (placeChairsInColumns_guests_le fuel _
              (target - tg.2) cfg doorAreas b _ _ (by linarith) hzrem) tg.2)
              (by linarith)⟩⟩
      · exact Or.inl rfl
      · exact Or.inr ⟨rfl, Or.inr ⟨h4, le_of_lt hrem'⟩⟩
      · exact Or.inl rfl
      · rw [Bool.or_eq_true] at h6
        rcases h6 with hl | hr
        · exact Or.inr ⟨rfl, Or.inl hl⟩
        · exact Or.inr ⟨rfl, Or.inr ⟨of_decide_eq_true hr,
            le_trans (add_le_add_left (placeChairsInColumns_guests_le fuel _
              (target - tg.2) cfg doorAreas b _ _ (by linarith) hzrem) tg.2)
              (by linarith)⟩⟩
      · exact Or.inl rfl
      · exact Or.inr ⟨rfl, Or.inr ⟨h7, le_of_lt hrem'⟩⟩
      · exact Or.inl rfl

/-- Witness for the smart-mix strict-update theorem at a concrete integer
target and configuration. -/
theorem placeSmartMix_strict_gap_update_witness :
    (∃ z : ℤ, (3 : ℚ) = z) ∧ (∃ z : ℤ, cfgMixExample.chairsPerTable = z) ∧
    (((⟨[], [], 0, none⟩ : BestSolution).gap = none) ∧
     ∀ (tc : ℕ) (best : BestSolution),
       best.gap = none ∨ best.gap = some |best.actualGuests - (3 : ℚ)| →
       (((smartMixStep 1 3 cfgMixExample [] (tableBounds cfgMixExample) 1 1 0
           tc best).1.gap = none ∨
         (smartMixStep 1 3 cfgMixExample [] (tableBounds cfgMixExample) 1 1 0
           tc best).1.gap =
           some |(smartMixStep 1 3 cfgMixExample [] (tableBounds cfgMixExample) 1 1 0
             tc best).1.actualGuests - 3|) ∧
        ((smartMixStep 1 3 cfgMixExample [] (tableBounds cfgMixExample) 1 1 0
           tc best).1 ≠ best →
         ∃ g, (smartMixStep 1 3 cfgMixExample [] (tableBounds cfgMixExample) 1 1 0
           tc best).1.gap = some g ∧
           ∀ g0, best.gap = some g0 → g < g0))) :=
  ⟨⟨3, by norm_num⟩, ⟨10, by norm_num [cfgMixExample]⟩,
   placeSmartMix_strict_gap_update 1 3 cfgMixExample [] (tableBounds cfgMixExample)
     1 1 0 ⟨3, by norm_num⟩ ⟨10, by norm_num [cfgMixExample]⟩⟩

/-- A nondecreasing state measure stays nondecreasing across a fold. -/
theorem foldl_measure_mono {σ α : Type} (μ : σ → ℚ) (f : σ → α → σ)
    (hf : ∀ st a, μ st ≤ μ (f st a)) :
    ∀ (l : List α) (st : σ), μ st ≤ μ (l.foldl f st) := by
  intro l
  induction l with
  | nil => intro st; exact le_refl _
  | cons a as ih => intro st; exact le_trans (hf st a) (ih (f st a))

/-- One row step of the tables-only column never decreases the guest count. -/
theorem tablesOnlyStep_guests_mono (target : ℚ) (cfg : TableConfig)
    (doorAreas : List DoorArea) (b : Bounds) (x : ℚ)
    (hcpt : 0 ≤ cfg.chairsPerTable)
    (st : List TablePos × ℚ × ℕ) (row : ℕ) :
    st.2.1 ≤ (if st.2.1 < target then
        let rowY := tableRowY cfg b row
        if rowY + cfg.height ≤ b.maxY then
          if isObjectInAnyDoorArea ⟨x, rowY, cfg.width, cfg.height, 0⟩ doorAreas then st
          else (st.1 ++ [⟨x, rowY, st.2.2⟩], st.2.1 + cfg.chairsPerTable, st.2.2 + 1)
        else st
      else st).2.1 := by
  dsimp only
  split_ifs
  · exact le_refl _
  · dsimp only; linarith
  · exact le_refl _
  · exact le_refl _

/-- A tables-only column pass never decreases the guest count. -/
theorem tablesOnlyColumn_guests_mono (target : ℚ) (cfg : TableConfig)
    (doorAreas : List DoorArea) (b : Bounds) (maxTablesPerColumn : ℕ) (x g : ℚ)
    (idx : ℕ) (hcpt : 0 ≤ cfg.chairsPerTable) :
    g ≤ (tablesOnlyColumn target cfg doorAreas b maxTablesPerColumn x g idx).2.1 := by
  unfold tablesOnlyColumn
  exact foldl_measure_mono (fun s : List TablePos × ℚ × ℕ => s.2.1) _
    (fun s a => tablesOnlyStep_guests_mono target cfg doorAreas b x hcpt s a)
    (List.range maxTablesPerColumn) ([], g, idx)

/-- A tables-only column pass keeps the guest count below
`target + chairsPerTable` (each table is added only while the count is below
the target). -/
theorem tablesOnlyColumn_guests_lt (target : ℚ) (cfg : TableConfig)
    (doorAreas : List DoorArea) (b : Bounds) (maxTablesPerColumn : ℕ) (x g : ℚ)
    (idx : ℕ) (hg : g < target + cfg.chairsPerTable) :
    (tablesOnlyColumn target cfg doorAreas b maxTablesPerColumn x g idx).2.1 <
      target + cfg.chairsPerTable := by
  unfold tablesOnlyColumn
  refine foldl_state_preserve _
    (fun st : List TablePos × ℚ × ℕ => st.2.1 < target + cfg.chairsPerTable) ?_
    (List.range maxTablesPerColumn) ([], g, idx) hg
  intro st a h
  dsimp only
  split_ifs with h1 h2 h3
  · exact h
  · dsimp only; linarith
  · exact h
  · exact h

/-- The tables-only sweep keeps the guest count below
`target + chairsPerTable`. -/
theorem placeTablesOnlyGo_guests_lt (target : ℚ) (cfg : TableConfig)
    (doorAreas : List DoorArea) (b : Bounds) (maxTablesPerColumn : ℕ) :
    ∀ (fuel : ℕ) (x g : ℚ) (idx : ℕ), g < target + cfg.chairsPerTable →
      (placeTablesOnlyGo target cfg doorAreas b maxTablesPerColumn fuel x g idx).2 <
        target + cfg.chairsPerTable := by
  intro fuel
  induction fuel with
  | zero => intro x g idx hg; simpa [placeTablesOnlyGo] using hg
  | succ f ih =>
    intro x g idx hg
    simp only [placeTablesOnlyGo]
    split_ifs with h1 h2
    · exact ih _ _ _ hg
    · exact ih _ _ _
        (tablesOnlyColumn_guests_lt target cfg doorAreas b maxTablesPerColumn x g idx hg)
    · exact hg

/-- The tables-only sweep never decreases the guest count. -/
theorem placeTablesOnlyGo_guests_mono (target : ℚ) (cfg : TableConfig)
    (doorAreas : List DoorArea) (b : Bounds) (maxTablesPerColumn : ℕ)
    (hcpt : 0 ≤ cfg.chairsPerTable) :
    ∀ (fuel : ℕ) (x g : ℚ) (idx : ℕ),
      g ≤ (placeTablesOnlyGo target cfg doorAreas b maxTablesPerColumn fuel x g idx).2 := by
  intro fuel
  induction fuel with
  | zero => intro x g idx; simp [placeTablesOnlyGo]
  | succ f ih =>
    intro x g idx
    simp only [placeTablesOnlyGo]
    split_ifs with h1 h2
    · exact ih _ _ _
    · exact le_trans
        (tablesOnlyColumn_guests_mono target cfg doorAreas b maxTablesPerColumn x g idx hcpt)
        (ih _ _ _)
    · exact le_refl g

/-- Advancing the cursor by one column pitch consumes exactly one fitting
column start. -/
theorem tablesColsFit_step (cfg : TableConfig) (b : Bounds) (x : ℚ)
    (hw : 0 < cfg.width + cfg.columnSpacing) (hx : x + cfg.width ≤ b.maxX) :
    tablesColsFit cfg b x =
      tablesColsFit cfg b (x + (cfg.width + cfg.columnSpacing)) + 1 := by
  unfold tablesColsFit
  rw [if_pos hx]
  by_cases hx2 : x + (cfg.width + cfg.columnSpacing) + cfg.width ≤ b.maxX
  · rw [if_pos hx2]
    have harg : (b.maxX - x - cfg.width) / (cfg.width + cfg.columnSpacing) =
        (b.maxX - (x + (cfg.width + cfg.columnSpacing)) - cfg.width) /
          (cfg.width + cfg.columnSpacing) + 1 := by
      field_simp
      ring
    have key : ⌊(b.maxX - x - cfg.width) / (cfg.width + cfg.columnSpacing)⌋ =
        ⌊(b.maxX - (x + (cfg.width + cfg.columnSpacing)) - cfg.width) /
          (cfg.width + cfg.columnSpacing)⌋ + 1 := by
      rw [harg, Int.floor_add_one]
    have hnn : (0 : ℤ) ≤ ⌊(b.maxX - (x + (cfg.width + cfg.columnSpacing)) - cfg.width) /
        (cfg.width + cfg.columnSpacing)⌋ :=
      Int.floor_nonneg.mpr (div_nonneg (by linarith) (le_of_lt hw))
    rw [key]
    omega
  · rw [if_neg hx2]
    have h0 : ⌊(b.maxX - x - cfg.width) / (cfg.width + cfg.columnSpacing)⌋ = 0 := by
      rw [Int.floor_eq_zero_iff]
      refine Set.mem_Ico.mpr ⟨div_nonneg (by linarith) (le_of_lt hw), ?_⟩
      rw [div_lt_one hw]
      linarith
    rw [h0]
    rfl

/-- Row-fold lower bound for a door-free tables-only column: the guest count
reaches the target or grows by one table's worth of chairs per valid row. -/
theorem tablesOnlyFold_min_bound (target : ℚ) (cfg : TableConfig) (b : Bounds)
    (x : ℚ) (hcpt : 0 ≤ cfg.chairsPerTable) :
    ∀ (l : List ℕ) (st : List TablePos × ℚ × ℕ),
      min target (st.2.1 +
        ((l.filter (fun row => decide (tableRowY cfg b row + cfg.height ≤ b.maxY))).length : ℚ) *
          cfg.chairsPerTable) ≤
      (l.foldl (fun st row =>
        if st.2.1 < target then
          let rowY := tableRowY cfg b row
          if rowY + cfg.height ≤ b.maxY then
            if isObjectInAnyDoorArea ⟨x, rowY, cfg.width, cfg.height, 0⟩ [] then st
            else (st.1 ++ [⟨x, rowY, st.2.2⟩], st.2.1 + cfg.chairsPerTable, st.2.2 + 1)
          else st
        else st) st).2.1 := by
  intro l
  induction l with
  | nil =>
    intro st
    simp
  | cons r rs ih =>
    intro st
    rw [List.foldl_cons, List.filter_cons]
    dsimp only
    simp only [decide_eq_true_eq]
    by_cases hrow : tableRowY cfg b r + cfg.height ≤ b.maxY
    · by_cases hg : st.2.1 < target
      · simp only [if_pos hg, if_pos hrow]
        rw [if_neg (show ¬ isObjectInAnyDoorArea
            ⟨x, tableRowY cfg b r, cfg.width, cfg.height, 0⟩ [] = true by
          simp [isObjectInAnyDoorArea])]
        have h2 := ih (st.1 ++ [⟨x, tableRowY cfg b r, st.2.2⟩],
          st.2.1 + cfg.chairsPerTable, st.2.2 + 1)
        push_cast [List.length_cons]
        have heq : st.2.1 +
            (((rs.filter (fun row =>
              decide (tableRowY cfg b row + cfg.height ≤ b.maxY))).length : ℚ) + 1) *
              cfg.chairsPerTable =
            st.2.1 + cfg.chairsPerTable +
            ((rs.filter (fun row =>
              decide (tableRowY cfg b row + cfg.height ≤ b.maxY))).length : ℚ) *
              cfg.chairsPerTable := by ring
        rw [heq]
        exact h2
      · simp only [if_neg hg]
        refine le_trans (min_le_left _ _) (le_trans (not_lt.mp hg) ?_)
        exact foldl_measure_mono (fun s : List TablePos × ℚ × ℕ => s.2.1) _
          (fun s a => tablesOnlyStep_guests_mono target cfg [] b x hcpt s a) rs st
    · simp only [if_neg hrow, ite_self]
      exact ih st

/-- Column lower bound for a door-free tables-only column. -/
theorem tablesOnlyColumn_min_bound (target : ℚ) (cfg : TableConfig) (b : Bounds)
    (maxTablesPerColumn : ℕ) (x g : ℚ) (idx : ℕ) (hcpt : 0 ≤ cfg.chairsPerTable) :
    min target (g + (tablesEffRows cfg b maxTablesPerColumn : ℚ) * cfg.chairsPerTable) ≤
      (tablesOnlyColumn target cfg [] b maxTablesPerColumn x g idx).2.1 := by
  unfold tablesOnlyColumn tablesEffRows
  exact tablesOnlyFold_min_bound target cfg b x hcpt (List.range maxTablesPerColumn)
    ([], g, idx)

/-- Capacity lower bound for the door-free tables-only sweep: with enough
fuel, the final guest count reaches the target or every fitting column
contributes a full column's worth of seats. -/
theorem placeTablesOnlyGo_capacity (target : ℚ) (cfg : TableConfig) (b : Bounds)
    (maxTablesPerColumn : ℕ) (hcpt : 0 ≤ cfg.chairsPerTable)
    (hw : 0 < cfg.width + cfg.columnSpacing) :
    ∀ (fuel : ℕ) (x g : ℚ) (idx : ℕ), tablesColsFit cfg b x ≤ fuel →
      min target (g + (tablesColsFit cfg b x : ℚ) *
        (tablesEffRows cfg b maxTablesPerColumn : ℚ) * cfg.chairsPerTable) ≤
      (placeTablesOnlyGo target cfg [] b maxTablesPerColumn fuel x g idx).2 := by
  intro fuel
  induction fuel with
  | zero =>
    intro x g idx hfit
    rw [Nat.le_zero] at hfit
    rw [hfit]
    simp [placeTablesOnlyGo]
  | succ f ih =>
    intro x g idx hfit
    simp only [placeTablesOnlyGo]
    by_cases hg : g < target
    · by_cases hx : x + cfg.width ≤ b.maxX
      · rw [if_pos ⟨hg, hx⟩]
        rw [if_neg (show ¬ columnOverlapsDoor x cfg.width [] = true by
          simp [columnOverlapsDoor])]
        dsimp only
        have hrec := tablesColsFit_step cfg b x hw hx
        have hfit' : tablesColsFit cfg b (x + (cfg.width + cfg.columnSpacing)) ≤ f := by
          omega
        have hcolb := tablesOnlyColumn_min_bound target cfg b maxTablesPerColumn x g
          idx hcpt
        have hIH := ih (x + (cfg.width + cfg.columnSpacing))
          (tablesOnlyColumn target cfg [] b maxTablesPerColumn x g idx).2.1
          (tablesOnlyColumn target cfg [] b maxTablesPerColumn x g idx).2.2 hfit'
        rcases le_total target
            (g + (tablesEffRows cfg b maxTablesPerColumn : ℚ) * cfg.chairsPerTable)
          with hc | hc
        · have ht : target ≤
              (tablesOnlyColumn target cfg [] b maxTablesPerColumn x g idx).2.1 := by
            rw [min_eq_left hc] at hcolb
            exact hcolb
          refine le_trans (min_le_left _ _) (le_trans ht ?_)
          exact placeTablesOnlyGo_guests_mono target cfg [] b maxTablesPerColumn hcpt f
            _ _ _
        · rw [min_eq_right hc] at hcolb
          rw [hrec]
          refine le_trans (min_le_min le_rfl ?_) hIH
          push_cast
          nlinarith [show (0 : ℚ) ≤
              ((tablesColsFit cfg b (x + (cfg.width + cfg.columnSpacing)) : ℕ) : ℚ) from
              Nat.cast_nonneg _,
            show (0 : ℚ) ≤ ((tablesEffRows cfg b maxTablesPerColumn : ℕ) : ℚ) from
              Nat.cast_nonneg _]
      · have h0 : tablesColsFit cfg b x = 0 := by
          unfold tablesColsFit
          rw [if_neg hx]
        rw [if_neg (fun hand => hx hand.2)]
        rw [h0]
        simp
    · rw [if_neg (fun hand => hg hand.1)]
      exact le_trans (min_le_left _ _) (not_lt.mp hg)

/-- Claim C2: in tables-only mode with a positive target and nonnegative
`chairsPerTable`, (a) for any doors the returned `actualGuests` stays below
`target + chairsPerTable` (placement stops as soon as the running count
reaches the target, overshooting by less than one table), and (b) with no
doors, a positive column pitch, enough loop fuel and enough fitting
columns/rows to cover the target, the result reaches the target:
`target ≤ actualGuests`. -/
theorem placeTablesOnly_overshoot_and_capacity (fuel : ℕ) (target : ℚ)
    (cfg : TableConfig) (hg : 0 < target) (hcpt : 0 ≤ cfg.chairsPerTable) :
    (∀ doorAreas : List DoorArea,
      (placeTablesOnly fuel target cfg doorAreas).actualGuests <
        target + cfg.chairsPerTable) ∧
    (0 < cfg.width + cfg.columnSpacing →
      tablesColsFit cfg (tableBounds cfg) (tableBounds cfg).minX ≤ fuel →
      target ≤ (tablesColsFit cfg (tableBounds cfg) (tableBounds cfg).minX : ℚ) *
        (tablesEffRows cfg (tableBounds cfg)
          (⌊((tableBounds cfg).maxY - (tableBounds cfg).minY) /
            (cfg.height + cfg.tableSpacing)⌋ : ℤ).toNat : ℚ) * cfg.chairsPerTable →
      target ≤ (placeTablesOnly fuel target cfg []).actualGuests) := by
  constructor
  · intro doorAreas
    unfold placeTablesOnly
    dsimp only
    exact placeTablesOnlyGo_guests_lt target cfg doorAreas (tableBounds cfg) _ fuel
      _ 0 0 (by linarith)
  · intro hw hfuel hcap
    unfold placeTablesOnly
    dsimp only
    have hb := placeTablesOnlyGo_capacity target cfg (tableBounds cfg)
      (⌊((tableBounds cfg).maxY - (tableBounds cfg).minY) /
        (cfg.height + cfg.tableSpacing)⌋ : ℤ).toNat hcpt hw fuel
      (tableBounds cfg).minX 0 0 hfuel
    refine le_trans (le_min le_rfl (by linarith)) hb

/-- Witness for the tables-only overshoot/capacity theorem: the spec's
30-guest example (8 chairs per table, two columns of two tables) seats
exactly 32 guests, with 30 ≤ 32 < 30 + 8. -/
theorem placeTablesOnly_overshoot_and_capacity_witness :
    ((0 : ℚ) < 30 ∧ (0 : ℚ) ≤ cfgCapacityExample.chairsPerTable) ∧
    ((∀ doorAreas : List DoorArea,
        (placeTablesOnly 2 30 cfgCapacityExample doorAreas).actualGuests <
          30 + cfgCapacityExample.chairsPerTable) ∧
      (0 < cfgCapacityExample.width + cfgCapacityExample.columnSpacing →
        tablesColsFit cfgCapacityExample (tableBounds cfgCapacityExample)
          (tableBounds cfgCapacityExample).minX ≤ 2 →
        (30 : ℚ) ≤ (tablesColsFit cfgCapacityExample (tableBounds cfgCapacityExample)
            (tableBounds cfgCapacityExample).minX : ℚ) *
          (tablesEffRows cfgCapacityExample (tableBounds cfgCapacityExample)
            (⌊((tableBounds cfgCapacityExample).maxY -
                (tableBounds cfgCapacityExample).minY) /
              (cfgCapacityExample.height + cfgCapacityExample.tableSpacing)⌋ : ℤ).toNat :
            ℚ) * cfgCapacityExample.chairsPerTable →
        (30 : ℚ) ≤ (placeTablesOnly 2 30 cfgCapacityExample []).actualGuests)) ∧
    (30 : ℚ) ≤ (placeTablesOnly 2 30 cfgCapacityExample []).actualGuests := by
  have hmain := placeTablesOnly_overshoot_and_capacity 2 30 cfgCapacityExample
    (by norm_num) (by norm_num [cfgCapacityExample])
  have hcf : tablesColsFit cfgCapacityExample (tableBounds cfgCapacityExample)
      (tableBounds cfgCapacityExample).minX = 2 := by
    norm_num [tablesColsFit, tableBounds, cfgCapacityExample,
      show Int.toNat 1 = 1 from rfl]
  have heff : tablesEffRows cfgCapacityExample (tableBounds cfgCapacityExample)
      (⌊((tableBounds cfgCapacityExample).maxY -
          (tableBounds cfgCapacityExample).minY) /
        (cfgCapacityExample.height + cfgCapacityExample.tableSpacing)⌋ : ℤ).toNat = 2 := by
    norm_num [tablesEffRows, tableRowY, tableBounds, cfgCapacityExample, jsOrQ,
      show Int.toNat 2 = 2 from rfl, List.range_succ]
  refine ⟨⟨by norm_num, by norm_num [cfgCapacityExample]⟩, hmain, ?_⟩
  refine hmain.2 (by norm_num [cfgCapacityExample]) (by rw [hcf]) ?_
  rw [hcf, heff]
  norm_num [cfgCapacityExample]
